import Mathlib

/-!
# The actor dispatch engine of `cacti.c`

A shallow embedding of `src/cacti.c`: `create_empty_actor`, `send_message`, the two
lock-protected critical sections of `threadpool_worker_job`, and
`actor_system_create`, followed by a transition system whose atomic steps are
exactly those critical sections.

Conventions of the embedding.

* Pointers (`role_t *`, `void *`) are natural numbers; `NULL` is `0`.
* Actor ids (`actor_id_t`) and message types are natural numbers; ids are dense from 0
  (specification §3), so an id is in the registry exactly when it is below its length.
* `unsigned number_of_active_actors` is a natural number kept below `2 ^ 32`
  by explicit reduction at the increment and the decrement.
* Every `malloc` of the source is a Boolean argument of the embedded function
  (`true`: the allocation succeeded).  A function returns `none` where the source
  calls `errexit(1)`, where a push meets a full mailbox (fatal, specification §7), or
  where the source goes on to use freed memory, `NULL`, or a handler that is not in
  the role's table.
* The headers `cacti.h`, `actor.h` and `threadpool.h` are absent.  Their constants
  are the fields of `Config`, which also holds the role descriptors the program has
  in memory; their helpers (`vec_*`, `queue_*`, `threadpool_schedule`) are modelled
  from the specification.
-/

namespace Cacti

/-- Constants of the absent headers, taken as parameters: the three reserved message
types, the number of worker threads, `sizeof(actor_id_t)` and the mailbox capacity,
which is at least 1024 (specification §3, invariant 5).  With them, the role
descriptors in memory: `nprompts_at p` is the field `nprompts` of the `role_t` at
address `p`, and `none` where no `role_t` lives (`NULL` included). -/
structure Config where
  MSG_SPAWN : Nat
  MSG_GODIE : Nat
  MSG_HELLO : Nat
  POOL_SIZE : Nat
  SIZEOF_ACTOR_ID : Nat
  MAILBOX_CAPACITY : Nat
  nprompts_at : Nat → Option Nat
  capacity_ge : 1024 ≤ MAILBOX_CAPACITY

/-- The type `message_t`: a type tag, a payload size and a payload pointer. -/
structure message_t where
  message_type : Nat
  nbytes : Nat
  data : Nat
deriving DecidableEq, Repr

/-- The type `actor_t`: the record `create_empty_actor` fills in. -/
structure actor_t where
  is_dead : Bool
  is_scheduled : Bool
  queue : List message_t
  role : Nat
  stateptr : Nat
deriving DecidableEq, Repr

/-- The type `actor_system_t` without its mutex and condition variable.  The field
`threadpool` holds the arguments of the tasks handed to `threadpool_schedule` whose
worker job has not yet run its first critical section. -/
structure actor_system_t where
  number_of_active_actors : Nat
  threadpool : List Nat
  actors : List actor_t
deriving DecidableEq, Repr

/-- The number of values of the C type `unsigned`. -/
def UINT_MODULUS : Nat := 2 ^ 32

/-- Modelled from the spec: `queue_push` of the absent `actor.h`; the mailbox is a
bounded FIFO, `push` adds at its tail, and a push on a full mailbox is fatal (§4.1,
§7): `none`. -/
def queue_push (capacity : Nat) (q : List message_t) (m : message_t) :
    Option (List message_t) :=
  if q.length < capacity then some (q ++ [m]) else none

/-- Modelled from the spec: `queue_pop` of the absent `actor.h`; `pop` takes the oldest
message (§4.1).  On an empty mailbox there is no message (`NULL`). -/
def queue_pop : List message_t → Option (message_t × List message_t)
  | [] => none
  | m :: rest => some (m, rest)

/-- Modelled from the spec: `queue_is_empty` of the absent `actor.h` (§4.1). -/
def queue_is_empty (q : List message_t) : Bool := q.isEmpty

/-- Modelled from the spec: `vec_length` of the absent `actor.h` (§4.2). -/
def vec_length (v : List actor_t) : Nat := v.length

/-- Modelled from the spec: `threadpool_schedule` of the absent `threadpool.h`; the pool
is a black box that receives tickets (§4.3). -/
def threadpool_schedule (pool : List Nat) (argument : Nat) : List Nat := pool ++ [argument]

/-- How a call of `create_empty_actor` ends.  `created`: it returns 0, with the new
system and `*actor`.  `system_freed`: the `malloc` of the record failed; the registry,
the pool and the system have been freed (lines 31-33) and it returns -1.
`record_freed`: `queue_create` failed; the record has been freed (line 41), its cell
stays in the registry, and it returns -1. -/
inductive create_outcome where
  | created (s : actor_system_t) (actor : Nat)
  | system_freed
  | record_freed
deriving DecidableEq, Repr

/-- The function `create_empty_actor` (cacti.c 27-47).  `vec_add_cell` appends a cell
and returns its index (spec §4.2). -/
def create_empty_actor (s : actor_system_t) (role : Nat) (malloc_ok queue_ok : Bool) :
    create_outcome :=
  let actor := vec_length s.actors
  if !malloc_ok then .system_freed
  else if !queue_ok then .record_freed
  else
    .created { s with
               number_of_active_actors := (s.number_of_active_actors + 1) % UINT_MODULUS
               actors := s.actors ++ [⟨false, false, [], role, 0⟩] } actor

/-- The function `send_message` (cacti.c 66-99): the new system and the returned
status; `none` where the source calls `errexit(1)` and where the push at line 84 meets
a full mailbox. -/
def send_message (cfg : Config) (s : actor_system_t) (actor_id : Nat) (message : message_t)
    (msg_ok task_ok : Bool) : Option (actor_system_t × Int) :=
  match s.actors[actor_id]? with
  | none => some (s, -2)
  | some actor =>
    if actor.is_dead then some (s, -1)
    else if !msg_ok then none
    else
      match queue_push cfg.MAILBOX_CAPACITY actor.queue message with
      | none => none
      | some queue =>
        if !actor.is_scheduled then
          if !task_ok then none
          else
            some ({ s with
                    threadpool := threadpool_schedule s.threadpool actor_id
                    actors :=
                      s.actors.set actor_id { actor with queue := queue, is_scheduled := true } },
                  0)
        else
          some ({ s with actors := s.actors.set actor_id { actor with queue := queue } }, 0)

/-- Where a worker thread stands between the two critical sections of
`threadpool_worker_job`. -/
inductive Stage where
  | hello_pending (new_id : Nat)
  | in_handler
  | wrap_up
deriving DecidableEq, Repr

/-- A worker thread that has run the first critical section of `threadpool_worker_job`
and not yet the second: the actor it serves, the message it popped, and where it
stands. -/
structure Job where
  actor_id : Nat
  m : message_t
  stage : Stage
deriving DecidableEq, Repr

/-- The first critical section of `threadpool_worker_job` for the ticket `actor_id`, up
to the call of the handler (cacti.c 106-121).  A pop from an empty mailbox gives `NULL`,
which line 110 dereferences: `none`.  The return value of `create_empty_actor` is
ignored by the source, so after either failure line 114 uses freed memory: `none`.
Line 120 calls `role->prompts[message_type]` unchecked: where the role is no `role_t`
or the type is not below its `nprompts` the call is wild: `none`. -/
def threadpool_worker_job_first (cfg : Config) (s : actor_system_t) (actor_id : Nat)
    (malloc_ok queue_ok : Bool) : Option (actor_system_t × Job) :=
  match s.actors[actor_id]? with
  | none => none
  | some actor =>
    match queue_pop actor.queue with
    | none => none
    | some (m, rest) =>
      let actor1 : actor_t := { actor with queue := rest, is_scheduled := false }
      let s1 : actor_system_t := { s with actors := s.actors.set actor_id actor1 }
      if m.message_type = cfg.MSG_SPAWN then
        match create_empty_actor s1 m.data malloc_ok queue_ok with
        | .created s2 new_id => some (s2, ⟨actor_id, m, .hello_pending new_id⟩)
        | .system_freed => none
        | .record_freed => none
      else if m.message_type = cfg.MSG_GODIE then
        some ({ s1 with actors := s1.actors.set actor_id { actor1 with is_dead := true } },
              ⟨actor_id, m, .wrap_up⟩)
      else
        match cfg.nprompts_at actor.role with
        | none => none
        | some nprompts =>
          if m.message_type < nprompts then some (s1, ⟨actor_id, m, .in_handler⟩)
          else none

/-- The second critical section of `threadpool_worker_job` (cacti.c 126-142). -/
def threadpool_worker_job_second (s : actor_system_t) (actor_id : Nat) (task_ok : Bool) :
    Option actor_system_t :=
  match s.actors[actor_id]? with
  | none => none
  | some actor =>
    if !queue_is_empty actor.queue && !actor.is_scheduled then
      if !task_ok then none
      else
        some { s with
               threadpool := threadpool_schedule s.threadpool actor_id
               actors := s.actors.set actor_id { actor with is_scheduled := true } }
    else if actor.is_dead && queue_is_empty actor.queue then
      some { s with
             number_of_active_actors :=
               (s.number_of_active_actors + (UINT_MODULUS - 1)) % UINT_MODULUS }
    else some s

/-- The condition on which the loop of `actor_system_join` (cacti.c 190) stops
waiting and the teardown begins. -/
def actor_system_join_proceeds (s : actor_system_t) : Bool := s.number_of_active_actors == 0

/-- The function `actor_system_create` (cacti.c 145-179): the returned status and, on
success, the system with the root actor's id.  It is `none` where `send_message` calls
`errexit(1)`, and where `create_empty_actor` has freed the system, which lines 170-172
then read and free again. -/
def actor_system_create (cfg : Config) (role : Nat)
    (sys_ok sync_ok pool_ok vec_ok malloc_ok queue_ok msg_ok task_ok : Bool) :
    Option (Int × Option (actor_system_t × Nat)) :=
  if !sys_ok then some (-1, none)
  else if !sync_ok then some (-2, none)
  else if !pool_ok then some (-3, none)
  else if !vec_ok then some (-4, none)
  else
    match create_empty_actor ⟨0, [], []⟩ role malloc_ok queue_ok with
    | .system_freed => none
    | .record_freed => some (-5, none)
    | .created s1 actor =>
      match send_message cfg s1 actor ⟨cfg.MSG_HELLO, 0, 0⟩ msg_ok task_ok with
      | none => none
      | some (s2, _) => some (0, some (s2, actor))

/-! ## The transition system -/

/-- A state of the running system: the shared `actor_system_t` and the worker threads
that are between their two critical sections. -/
structure World where
  sys : actor_system_t
  jobs : List Job
deriving DecidableEq, Repr

/-- The atomic steps.  `send`: some thread (a handler or an outside thread) runs
`send_message`.  `job_start k`: an idle worker runs the first critical section for the
`k`-th outstanding ticket.  `job_hello j`: the `j`-th running job, in the SPAWN branch,
runs its `send_message(new_id, HELLO)`.  `handler_store j v`: the handler run by job `j`
writes `v` through the `stateptr` it was given.  `job_finish j`: job `j` runs the
second critical section. -/
inductive Event where
  | send (actor_id : Nat) (message : message_t)
  | job_start (k : Nat)
  | job_hello (j : Nat)
  | handler_store (j : Nat) (v : Nat)
  | job_finish (j : Nat)
deriving DecidableEq, Repr

/-- What a step lets an observer see: a `send_message` call with its returned status, a
message popped by a worker for an actor, a user handler of an actor's role invoked on a
message. -/
inductive Obs where
  | sent (actor_id : Nat) (message : message_t) (result : Int)
  | popped (actor_id : Nat) (m : message_t)
  | invoked (actor_id : Nat) (m : message_t)
deriving DecidableEq, Repr

/-- The message of cacti.c 114: `(message_t){MSG_HELLO, sizeof(actor_id_t), (void *)actor_id}`. -/
def hello_message (cfg : Config) (actor_id : Nat) : message_t :=
  ⟨cfg.MSG_HELLO, cfg.SIZEOF_ACTOR_ID, actor_id⟩

/-- One atomic step, with allocations succeeding; `none` where the step is not possible
or the source's behaviour is undefined or fatal.  At most `POOL_SIZE` worker threads
exist, so a job starts only while fewer are running.  A job that starts in the handler
branch is logged as a handler invoked. -/
def step (cfg : Config) (w : World) : Event → Option (World × List Obs)
  | .send actor_id message =>
    match send_message cfg w.sys actor_id message true true with
    | none => none
    | some (s, r) => some (⟨s, w.jobs⟩, [.sent actor_id message r])
  | .job_start k =>
    if cfg.POOL_SIZE ≤ w.jobs.length then none
    else
      match w.sys.threadpool[k]? with
      | none => none
      | some actor_id =>
        match threadpool_worker_job_first cfg { w.sys with threadpool := w.sys.threadpool.eraseIdx k }
            actor_id true true with
        | none => none
        | some (s, job) =>
          some (⟨s, w.jobs ++ [job]⟩,
                .popped actor_id job.m ::
                  (if job.stage = .in_handler then [.invoked actor_id job.m] else []))
  | .job_hello j =>
    match w.jobs[j]? with
    | some ⟨actor_id, m, .hello_pending new_id⟩ =>
      match send_message cfg w.sys new_id (hello_message cfg actor_id) true true with
      | none => none
      | some (s, r) =>
        some (⟨s, w.jobs.set j ⟨actor_id, m, .wrap_up⟩⟩,
              [.sent new_id (hello_message cfg actor_id) r])
    | _ => none
  | .handler_store j v =>
    match w.jobs[j]? with
    | some ⟨actor_id, _, .in_handler⟩ =>
      match w.sys.actors[actor_id]? with
      | none => none
      | some actor =>
        some (⟨{ w.sys with actors := w.sys.actors.set actor_id { actor with stateptr := v } },
               w.jobs⟩, [])
    | _ => none
  | .job_finish j =>
    match w.jobs[j]? with
    | some ⟨actor_id, _, .in_handler⟩ | some ⟨actor_id, _, .wrap_up⟩ =>
      match threadpool_worker_job_second w.sys actor_id true with
      | none => none
      | some s => some (⟨s, w.jobs.eraseIdx j⟩, [])
    | _ => none

/-- Runs a list of steps, collecting the observations. -/
def exec (cfg : Config) : World → List Obs → List Event → Option (World × List Obs)
  | w, log, [] => some (w, log)
  | w, log, e :: es =>
    match step cfg w e with
    | none => none
    | some (w1, obs) => exec cfg w1 (log ++ obs) es

/-- The state in which `actor_system_create` leaves the system when every step of it
succeeds, with the observation of its `send_message(root, HELLO)`. -/
def boot (cfg : Config) (role : Nat) : Option (World × List Obs) :=
  match actor_system_create cfg role true true true true true true true true with
  | some (0, some (s, root)) => some (⟨s, []⟩, [.sent root ⟨cfg.MSG_HELLO, 0, 0⟩ 0])
  | _ => none

/-- The states, with their observation logs, that a run started by
`actor_system_create` reaches. -/
def Reachable (cfg : Config) (w : World) (log : List Obs) : Prop :=
  ∃ role w0 log0 es, boot cfg role = some (w0, log0) ∧ exec cfg w0 log0 es = some (w, log)

/-- The messages `send_message` accepted (returned 0) for an actor, in log order. -/
def accepted (actor_id : Nat) : List Obs → List message_t
  | [] => []
  | .sent a m r :: rest =>
    if a = actor_id ∧ r = 0 then m :: accepted actor_id rest else accepted actor_id rest
  | _ :: rest => accepted actor_id rest

/-- The messages popped for an actor, in log order. -/
def popped (actor_id : Nat) : List Obs → List message_t
  | [] => []
  | .popped a m :: rest =>
    if a = actor_id then m :: popped actor_id rest else popped actor_id rest
  | _ :: rest => popped actor_id rest

/-- The mailbox of an actor; empty for an id that is not in the registry. -/
def mailbox (s : actor_system_t) (actor_id : Nat) : List message_t :=
  match s.actors[actor_id]? with
  | none => []
  | some actor => actor.queue

/-- The running jobs that serve a given actor. -/
def jobs_of (w : World) (actor_id : Nat) : List Job :=
  w.jobs.filter (fun job => job.actor_id = actor_id)

/-- The `is_dead` flag of the actor with a given id; `false` for an id that is not in
the registry. -/
def is_dead_at (s : actor_system_t) (actor_id : Nat) : Bool :=
  match s.actors[actor_id]? with
  | none => false
  | some actor => actor.is_dead

/-- The status of `send_message` as the interface table words it: `-2` for an id that is
not below the registry length, `-1` for a dead recipient, `0` otherwise. -/
def send_status_spec (s : actor_system_t) (actor_id : Nat) : Int :=
  if vec_length s.actors ≤ actor_id then -2
  else if is_dead_at s actor_id then -1
  else 0

/-- The bookkeeping of tickets: every outstanding ticket names an actor of the registry;
an actor has one outstanding ticket when its `is_scheduled` flag is set and none
otherwise; a scheduled actor has a message to pop. -/
structure SysInv (s : actor_system_t) : Prop where
  in_range : ∀ id : Nat, id ∈ s.threadpool → id < s.actors.length
  tickets : ∀ (id : Nat) (actor : actor_t), s.actors[id]? = some actor →
    s.threadpool.count id = if actor.is_scheduled then 1 else 0
  nonempty : ∀ (id : Nat) (actor : actor_t), s.actors[id]? = some actor →
    actor.is_scheduled = true →
    actor.queue ≠ []

/-- The history of the mailboxes: what `send_message` accepted for an actor is what was
popped for it followed by what is still queued, nothing was accepted for an id that is
not yet in the registry, and a dead actor has had a message popped. -/
structure LogInv (s : actor_system_t) (log : List Obs) : Prop where
  fifo : ∀ id : Nat, accepted id log = popped id log ++ mailbox s id
  fresh : ∀ id : Nat, s.actors.length ≤ id → accepted id log = []
  dead_popped : ∀ id : Nat, is_dead_at s id = true → popped id log ≠ []

/-- The invariant of the transition system: the ticket bookkeeping, running jobs that
name actors of the registry, and the history of the mailboxes. -/
structure Inv (w : World) (log : List Obs) : Prop where
  sys : SysInv w.sys
  jobs_in_range : ∀ job : Job, job ∈ w.jobs → job.actor_id < w.sys.actors.length
  hello_in_range : ∀ job : Job, job ∈ w.jobs → ∀ n : Nat, job.stage = .hello_pending n →
    n < w.sys.actors.length
  hist : LogInv w.sys log

/-- The number of outstanding tickets for an actor: tasks handed to
`threadpool_schedule` with its id whose worker job has not yet run its first
critical section. -/
def outstanding_tickets (s : actor_system_t) (actor_id : Nat) : Nat :=
  s.threadpool.count actor_id

/-- A run from `actor_system_create` (every step of it succeeding) through a list of
atomic steps. -/
def run (cfg : Config) (role : Nat) (es : List Event) : Option (World × List Obs) :=
  match boot cfg role with
  | none => none
  | some (w, log) => exec cfg w log es

/-- The reserved types as the specification numbers them (§6.1: TERMINATE 0, SPAWN 1),
a HELLO index of 2, two worker threads, an 8-byte `actor_id_t`, mailboxes of 1024
messages, and at every address but `NULL` a role with 8 handlers. -/
def two_workers : Config :=
  ⟨1, 0, 2, 2, 8, 1024, fun p => if p = 0 then none else some 8, Nat.le_refl 1024⟩

/-- The same constants with a single worker thread. -/
def one_worker : Config :=
  ⟨1, 0, 2, 1, 8, 1024, fun p => if p = 0 then none else some 8, Nat.le_refl 1024⟩

/-- Whether line 120 finds a handler to call: the role is a `role_t` and the message
type is an index of its table. -/
def has_handler (cfg : Config) (role : Nat) (m : message_t) : Bool :=
  match cfg.nprompts_at role with
  | none => false
  | some nprompts => decide (m.message_type < nprompts)

/-- Whether a popped message can be dispatched by lines 110-121: it is a SPAWN or a
TERMINATE message, or the role has a handler for its type. -/
def dispatchable (cfg : Config) (role : Nat) (m : message_t) : Bool :=
  decide (m.message_type = cfg.MSG_SPAWN) || decide (m.message_type = cfg.MSG_GODIE) ||
    has_handler cfg role m

/-- Two worker jobs for the root actor at once: a worker pops the root's HELLO and runs
its handler; meanwhile a message of type 5 is sent to the root, and a second worker pops
it. -/
def overlap_trace : List Event :=
  [.job_start 0, .send 0 ⟨5, 0, 0⟩, .job_start 0]

/-- The counter reaches 0 while a worker is still in a handler: as `overlap_trace`, with
TERMINATE as the message sent meanwhile, and the second worker finishing first. -/
def early_join_trace : List Event :=
  [.job_start 0, .send 0 ⟨0, 0, 0⟩, .job_start 0, .job_finish 1]

/-- The counter reaches 0 while a spawned actor is alive: the root spawns a child, the
child handles its HELLO, then the root is served by two workers at once as in
`early_join_trace` and both decrement the counter; at last a message is sent to the
child. -/
def orphan_trace : List Event :=
  [.send 0 ⟨1, 0, 7⟩, .job_start 0, .job_finish 0, .job_start 0, .job_hello 0, .job_finish 0,
   .job_start 0, .job_finish 0,
   .send 0 ⟨5, 0, 0⟩, .job_start 0, .send 0 ⟨0, 0, 0⟩, .job_start 0, .job_finish 1,
   .job_finish 0, .send 1 ⟨5, 0, 0⟩]

/-- A message reaches a spawned actor ahead of its parent's HELLO: the root pops a SPAWN
and creates actor 1; before the root's worker sends HELLO, some thread sends a message of
type 5 to id 1. -/
def overtake_trace : List Event :=
  [.send 0 ⟨1, 0, 7⟩, .job_start 0, .job_finish 0, .job_start 0, .send 1 ⟨5, 0, 0⟩,
   .job_hello 0, .job_finish 0, .job_start 0]

/-- A message queued behind TERMINATE is handled: TERMINATE and then a message of type 5
are sent to the root while its HELLO is still queued; three worker jobs pop the three
messages in turn. -/
def behind_terminate_trace : List Event :=
  [.send 0 ⟨0, 0, 0⟩, .send 0 ⟨5, 0, 0⟩, .job_start 0, .job_finish 0, .job_start 0,
   .job_finish 0, .job_start 0]

/-- A state in which the root, with a SPAWN message at the head of its mailbox, has a
ticket outstanding and both workers are idle. -/
def spawn_world : World :=
  ⟨⟨1, [0], [⟨false, true, [⟨1, 0, 9⟩], 7, 0⟩]⟩, []⟩

/-- A state in which a dead root still has a message of type 5 queued and a ticket
outstanding. -/
def dead_world : World :=
  ⟨⟨1, [0], [⟨true, true, [⟨5, 0, 0⟩], 7, 0⟩]⟩, []⟩

/-- A state in which the root's worker is about to pop a TERMINATE message. -/
def terminate_world : World :=
  ⟨⟨1, [0], [⟨false, true, [⟨0, 0, 0⟩], 7, 0⟩]⟩, []⟩

/-- The root has popped a SPAWN message and created actor 1; its worker has not yet sent
the HELLO. -/
def spawn_trace : List Event :=
  [.send 0 ⟨1, 0, 7⟩, .job_start 0, .job_finish 0, .job_start 0]

/-- The state and log a run ends in; an empty system when the run is not possible. -/
def run_result (cfg : Config) (role : Nat) (es : List Event) : World × List Obs :=
  (run cfg role es).getD (⟨⟨0, [], []⟩, []⟩, [])

/-- A worker is in the root's HELLO handler and a message of type 5 has been sent to the
root meanwhile: the root is scheduled again and its ticket is outstanding. -/
def scheduled_trace : List Event :=
  [.job_start 0, .send 0 ⟨5, 0, 0⟩]

/-! ## Theorems -/

theorem send_message_unknown (cfg : Config) (s : actor_system_t) (actor_id : Nat)
    (message : message_t) (b1 b2 : Bool) (h : s.actors[actor_id]? = none) :
    send_message cfg s actor_id message b1 b2 = some (s, -2) := by
  simp [send_message, h]

theorem send_message_dead (cfg : Config) (s : actor_system_t) (actor_id : Nat)
    (message : message_t) (b1 b2 : Bool) (actor : actor_t)
    (h : s.actors[actor_id]? = some actor) (hd : actor.is_dead = true) :
    send_message cfg s actor_id message b1 b2 = some (s, -1) := by
  simp [send_message, h, hd]

theorem send_message_accept (cfg : Config) (s : actor_system_t) (actor_id : Nat)
    (message : message_t) (actor : actor_t) (h : s.actors[actor_id]? = some actor)
    (hd : actor.is_dead = false) (hcap : actor.queue.length < cfg.MAILBOX_CAPACITY) :
    send_message cfg s actor_id message true true =
      some (⟨s.number_of_active_actors,
              if actor.is_scheduled then s.threadpool else s.threadpool ++ [actor_id],
              s.actors.set actor_id
                ⟨false, true, actor.queue ++ [message], actor.role, actor.stateptr⟩⟩, 0) := by
  cases hs : actor.is_scheduled <;>
    simp [send_message, h, hd, hs, queue_push, hcap, threadpool_schedule]

theorem send_message_full (cfg : Config) (s : actor_system_t) (actor_id : Nat)
    (message : message_t) (b1 b2 : Bool) (actor : actor_t)
    (h : s.actors[actor_id]? = some actor) (hd : actor.is_dead = false)
    (hfull : cfg.MAILBOX_CAPACITY ≤ actor.queue.length) :
    send_message cfg s actor_id message b1 b2 = none := by
  have hnot : ¬ actor.queue.length < cfg.MAILBOX_CAPACITY := Nat.not_lt.2 hfull
  cases b1 <;> simp [send_message, h, hd, queue_push, hnot]

theorem send_message_alive_cases (cfg : Config) (s : actor_system_t) (actor_id : Nat)
    (message : message_t) (b1 b2 : Bool) (actor : actor_t)
    (h : s.actors[actor_id]? = some actor) (hd : actor.is_dead = false) :
    send_message cfg s actor_id message b1 b2 = none ∨
      (actor.queue.length < cfg.MAILBOX_CAPACITY ∧
        send_message cfg s actor_id message b1 b2 =
          send_message cfg s actor_id message true true) := by
  by_cases hcap : actor.queue.length < cfg.MAILBOX_CAPACITY
  · cases b1 <;> cases b2 <;> cases hs : actor.is_scheduled <;>
      simp [send_message, h, hd, hs, hcap, queue_push]
  · exact Or.inl (send_message_full cfg s actor_id message b1 b2 actor h hd
      (Nat.le_of_not_lt hcap))

theorem getElem?_none_iff_vec_length (s : actor_system_t) (actor_id : Nat) :
    s.actors[actor_id]? = none ↔ vec_length s.actors ≤ actor_id := by
  simp [vec_length]

theorem send_message_returned (cfg : Config) (s : actor_system_t) (actor_id : Nat)
    (message : message_t) (b1 b2 : Bool) (s1 : actor_system_t) (r : Int)
    (h : send_message cfg s actor_id message b1 b2 = some (s1, r)) :
    (r = -2 ∧ s1 = s ∧ s.actors[actor_id]? = none) ∨
    (r = -1 ∧ s1 = s ∧ ∃ actor, s.actors[actor_id]? = some actor ∧ actor.is_dead = true) ∨
    (r = 0 ∧ ∃ actor, s.actors[actor_id]? = some actor ∧ actor.is_dead = false ∧
      actor.queue.length < cfg.MAILBOX_CAPACITY ∧
      s1 = ⟨s.number_of_active_actors,
              if actor.is_scheduled then s.threadpool else s.threadpool ++ [actor_id],
              s.actors.set actor_id
                ⟨false, true, actor.queue ++ [message], actor.role, actor.stateptr⟩⟩) := by
  cases ha : s.actors[actor_id]? with
  | none =>
    rw [send_message_unknown cfg s actor_id message b1 b2 ha] at h
    simp only [Option.some.injEq, Prod.mk.injEq] at h
    exact Or.inl ⟨h.2.symm, h.1.symm, rfl⟩
  | some actor =>
    cases hd : actor.is_dead with
    | true =>
      rw [send_message_dead cfg s actor_id message b1 b2 actor ha hd] at h
      simp only [Option.some.injEq, Prod.mk.injEq] at h
      exact Or.inr (Or.inl ⟨h.2.symm, h.1.symm, actor, rfl, hd⟩)
    | false =>
      rcases send_message_alive_cases cfg s actor_id message b1 b2 actor ha hd with
        hn | ⟨hcap, he⟩
      · rw [hn] at h; cases h
      · rw [he, send_message_accept cfg s actor_id message actor ha hd hcap] at h
        simp only [Option.some.injEq, Prod.mk.injEq] at h
        exact Or.inr (Or.inr ⟨h.2.symm, actor, rfl, hd, hcap, h.1.symm⟩)

/-- C1. `send_message` returns -2 exactly for an id that is not below the registry
length and -1 exactly for an id in range whose actor is dead, whatever the allocator
does; any status it returns is -2, -1 or 0; with allocations succeeding, and room in
the mailbox of a live recipient, it returns, and its status is 0 in the remaining case;
a call that returns -1 or -2 leaves the whole system (mailboxes, flags, registry,
counter, outstanding tickets) as it was. -/
theorem send_message_status (cfg : Config) (s : actor_system_t) (actor_id : Nat)
    (message : message_t) :
    (∀ b1 b2, (send_message cfg s actor_id message b1 b2).map Prod.snd = some (-2) ↔
        vec_length s.actors ≤ actor_id) ∧
    (∀ b1 b2, (send_message cfg s actor_id message b1 b2).map Prod.snd = some (-1) ↔
        (actor_id < vec_length s.actors ∧ is_dead_at s actor_id = true)) ∧
    (∀ b1 b2 s1 r, send_message cfg s actor_id message b1 b2 = some (s1, r) →
        r = -2 ∨ r = -1 ∨ r = 0) ∧
    ((is_dead_at s actor_id = false →
          (mailbox s actor_id).length < cfg.MAILBOX_CAPACITY) →
        (send_message cfg s actor_id message true true).map Prod.snd =
          some (send_status_spec s actor_id)) ∧
    (∀ b1 b2 s1 r, send_message cfg s actor_id message b1 b2 = some (s1, r) →
        r = -1 ∨ r = -2 → s1 = s) := by
  refine ⟨?_, ?_, ?_, ?_, ?_⟩
  · intro b1 b2
    constructor
    · intro h
      cases hr : send_message cfg s actor_id message b1 b2 with
      | none => rw [hr] at h; cases h
      | some p =>
        obtain ⟨s1, r⟩ := p
        rw [hr] at h
        simp only [Option.map_some', Option.some.injEq] at h
        rcases send_message_returned cfg s actor_id message b1 b2 s1 r hr with h1 | h1 | h1
        · exact (getElem?_none_iff_vec_length s actor_id).1 h1.2.2
        · omega
        · omega
    · intro h
      rw [send_message_unknown cfg s actor_id message b1 b2
        ((getElem?_none_iff_vec_length s actor_id).2 h)]
      rfl
  · intro b1 b2
    constructor
    · intro h
      cases hr : send_message cfg s actor_id message b1 b2 with
      | none => rw [hr] at h; cases h
      | some p =>
        obtain ⟨s1, r⟩ := p
        rw [hr] at h
        simp only [Option.map_some', Option.some.injEq] at h
        rcases send_message_returned cfg s actor_id message b1 b2 s1 r hr with h1 | h1 | h1
        · omega
        · obtain ⟨-, -, actor, ha, hd⟩ := h1
          constructor
          · by_contra hlt
            have := (getElem?_none_iff_vec_length s actor_id).2 (Nat.le_of_not_lt hlt)
            rw [ha] at this; cases this
          · simp [is_dead_at, ha, hd]
        · omega
    · rintro ⟨hlt, hd⟩
      cases ha : s.actors[actor_id]? with
      | none => simp [is_dead_at, ha] at hd
      | some actor =>
        simp only [is_dead_at, ha] at hd
        rw [send_message_dead cfg s actor_id message b1 b2 actor ha hd]
        rfl
  · intro b1 b2 s1 r h
    rcases send_message_returned cfg s actor_id message b1 b2 s1 r h with h1 | h1 | h1
    · exact Or.inl h1.1
    · exact Or.inr (Or.inl h1.1)
    · exact Or.inr (Or.inr h1.1)
  · intro hroom
    cases ha : s.actors[actor_id]? with
    | none =>
      have hle := (getElem?_none_iff_vec_length s actor_id).1 ha
      rw [send_message_unknown cfg s actor_id message true true ha]
      simp [send_status_spec, hle]
    | some actor =>
      have hlt : ¬ vec_length s.actors ≤ actor_id := by
        intro hle
        have := (getElem?_none_iff_vec_length s actor_id).2 hle
        rw [ha] at this; cases this
      cases hd : actor.is_dead with
      | true =>
        rw [send_message_dead cfg s actor_id message true true actor ha hd]
        simp [send_status_spec, hlt, is_dead_at, ha, hd]
      | false =>
        have hcap : actor.queue.length < cfg.MAILBOX_CAPACITY := by
          have := hroom (by simp [is_dead_at, ha, hd])
          simpa [mailbox, ha] using this
        rw [send_message_accept cfg s actor_id message actor ha hd hcap]
        simp [send_status_spec, hlt, is_dead_at, ha, hd]
  · intro b1 b2 s1 r h hr
    rcases send_message_returned cfg s actor_id message b1 b2 s1 r h with h1 | h1 | h1
    · exact h1.2.1
    · exact h1.2.1
    · omega

/-- C2. A `send_message` to an actor that is in the registry, not dead, and whose
mailbox holds fewer messages than its capacity returns 0 (the allocations succeeding);
the actor's mailbox becomes the old one with the message at its tail; an unscheduled
actor becomes scheduled and exactly one ticket with its id is handed to the pool, a
scheduled one stays scheduled and no ticket is handed over; every other record, the
registry length and `number_of_active_actors` stay as they were.  On a full mailbox the
call does not return: the push is fatal. -/
theorem send_message_enqueues (cfg : Config) (s : actor_system_t) (actor_id : Nat)
    (message : message_t) (actor : actor_t) (h : s.actors[actor_id]? = some actor)
    (hd : actor.is_dead = false) :
    (actor.queue.length < cfg.MAILBOX_CAPACITY →
      ∃ s1, send_message cfg s actor_id message true true = some (s1, 0) ∧
        s1.actors[actor_id]? =
          some ⟨false, true, actor.queue ++ [message], actor.role, actor.stateptr⟩ ∧
        (actor.is_scheduled = false → s1.threadpool = s.threadpool ++ [actor_id]) ∧
        (actor.is_scheduled = true → s1.threadpool = s.threadpool) ∧
        (∀ other, other ≠ actor_id → s1.actors[other]? = s.actors[other]?) ∧
        vec_length s1.actors = vec_length s.actors ∧
        s1.number_of_active_actors = s.number_of_active_actors) ∧
    (cfg.MAILBOX_CAPACITY ≤ actor.queue.length →
      ∀ b1 b2, send_message cfg s actor_id message b1 b2 = none) := by
  refine ⟨fun hcap => ?_, fun hfull b1 b2 =>
    send_message_full cfg s actor_id message b1 b2 actor h hd hfull⟩
  refine ⟨_, send_message_accept cfg s actor_id message actor h hd hcap, ?_, ?_, ?_, ?_, ?_,
    rfl⟩
  · have hlt : actor_id < s.actors.length := by
      by_contra hge
      rw [List.getElem?_eq_none (Nat.le_of_not_lt hge)] at h; cases h
    simp [List.getElem?_set, hlt]
  · intro hs; simp [hs]
  · intro hs; simp [hs]
  · intro other hne
    simp [List.getElem?_set_ne (Ne.symm hne)]
  · simp [vec_length]

/-- C2 at a concrete state: one idle actor with an empty mailbox, one message. -/
theorem send_message_enqueues_witness :
    ∃ s1, send_message two_workers ⟨1, [], [⟨false, false, [], 7, 0⟩]⟩ 0 ⟨5, 0, 0⟩ true true =
        some (s1, 0) ∧
      s1.actors[0]? = some ⟨false, true, [⟨5, 0, 0⟩], 7, 0⟩ ∧
      s1.threadpool = [0] ∧
      s1.number_of_active_actors = 1 := by
  obtain ⟨s1, h1, h2, h3, -, -, -, h7⟩ :=
    (send_message_enqueues two_workers ⟨1, [], [⟨false, false, [], 7, 0⟩]⟩ 0 ⟨5, 0, 0⟩
      ⟨false, false, [], 7, 0⟩ rfl rfl).1 (by decide)
  exact ⟨s1, h1, h2, h3 rfl, h7⟩

theorem accepted_append (id : Nat) (l1 l2 : List Obs) :
    accepted id (l1 ++ l2) = accepted id l1 ++ accepted id l2 := by
  induction l1 with
  | nil => rfl
  | cons o rest ih =>
    cases o with
    | sent a m r =>
      by_cases h : a = id ∧ r = 0 <;> simp [accepted, h, ih]
    | popped a m => simpa [accepted] using ih
    | invoked a m => simpa [accepted] using ih

theorem popped_append (id : Nat) (l1 l2 : List Obs) :
    popped id (l1 ++ l2) = popped id l1 ++ popped id l2 := by
  induction l1 with
  | nil => rfl
  | cons o rest ih =>
    cases o with
    | sent a m r => simpa [popped] using ih
    | popped a m =>
      by_cases h : a = id <;> simp [popped, h, ih]
    | invoked a m => simpa [popped] using ih

theorem count_eraseIdx_of_getElem? (l : List Nat) (k a b : Nat) (h : l[k]? = some a) :
    (l.eraseIdx k).count b + (if a = b then 1 else 0) = l.count b := by
  induction l generalizing k with
  | nil => simp at h
  | cons x rest ih =>
    cases k with
    | zero =>
      simp only [List.getElem?_cons_zero, Option.some.injEq] at h
      subst h
      by_cases hx : x = b <;> simp [List.count_cons, hx]
    | succ k =>
      simp only [List.getElem?_cons_succ] at h
      have := ih k h
      simp only [List.eraseIdx_cons_succ, List.count_cons]
      omega

theorem getElem?_lt_length {α : Type} (l : List α) (i : Nat) (a : α) (h : l[i]? = some a) :
    i < l.length := by
  by_contra hge
  rw [List.getElem?_eq_none (Nat.le_of_not_lt hge)] at h
  cases h

theorem sysinv_schedule (s : actor_system_t) (hs : SysInv s) (id : Nat) (actor : actor_t)
    (ha : s.actors[id]? = some actor) (n : Nat) (d : Bool) (q : List message_t) (r sp : Nat)
    (hq : q ≠ []) :
    SysInv ⟨n, if actor.is_scheduled then s.threadpool else s.threadpool ++ [id],
      s.actors.set id ⟨d, true, q, r, sp⟩⟩ := by
  have hlt := getElem?_lt_length _ _ _ ha
  refine ⟨?_, ?_, ?_⟩
  · intro j hj
    simp only [List.length_set]
    by_cases hsch : actor.is_scheduled = true
    · simp only [hsch, if_true] at hj
      exact hs.in_range j hj
    · simp only [hsch, Bool.false_eq_true, if_false, List.mem_append, List.mem_singleton] at hj
      rcases hj with hj | hj
      · exact hs.in_range j hj
      · rw [hj]; exact hlt
  · intro j a hj
    by_cases hji : j = id
    · subst hji
      simp only [List.getElem?_set, hlt, if_true, Option.some.injEq] at hj
      subst hj
      have := hs.tickets j actor ha
      cases hsch : actor.is_scheduled
      · simp [hsch] at this ⊢
        simp [List.count_eq_zero, this]
      · simpa [hsch] using this
    · rw [List.getElem?_set_ne (Ne.symm hji)] at hj
      have := hs.tickets j a hj
      cases hsch : actor.is_scheduled
      · simp only [Bool.false_eq_true, if_false, List.count_append, List.count_singleton]
        simp [Ne.symm hji, this]
      · simpa using this
  · intro j a hj hsched
    by_cases hji : j = id
    · subst hji
      simp only [List.getElem?_set, hlt, if_true, Option.some.injEq] at hj
      subst hj
      exact hq
    · rw [List.getElem?_set_ne (Ne.symm hji)] at hj
      exact hs.nonempty j a hj hsched

theorem sysinv_unschedule (s : actor_system_t) (hs : SysInv s) (k id : Nat) (actor : actor_t)
    (hk : s.threadpool[k]? = some id) (ha : s.actors[id]? = some actor) (n : Nat) (d : Bool)
    (q : List message_t) (r sp : Nat) :
    SysInv ⟨n, s.threadpool.eraseIdx k, s.actors.set id ⟨d, false, q, r, sp⟩⟩ := by
  have hlt := getElem?_lt_length _ _ _ ha
  refine ⟨?_, ?_, ?_⟩
  · intro j hj
    simp only [List.length_set]
    exact hs.in_range j (List.eraseIdx_subset _ _ hj)
  · intro j a hj
    have hc := count_eraseIdx_of_getElem? s.threadpool k id j hk
    by_cases hji : j = id
    · subst hji
      simp only [List.getElem?_set, hlt, if_true, Option.some.injEq] at hj
      subst hj
      have := hs.tickets j actor ha
      simp only [if_true] at hc
      simp only [Bool.false_eq_true, if_false]
      split at this <;> omega
    · rw [List.getElem?_set_ne (Ne.symm hji)] at hj
      have := hs.tickets j a hj
      simp only [Ne.symm hji, if_false, Nat.add_zero] at hc
      rw [hc]; exact this
  · intro j a hj hsched
    by_cases hji : j = id
    · subst hji
      simp only [List.getElem?_set, hlt, if_true, Option.some.injEq] at hj
      subst hj
      cases hsched
    · rw [List.getElem?_set_ne (Ne.symm hji)] at hj
      exact hs.nonempty j a hj hsched

theorem sysinv_append (s : actor_system_t) (hs : SysInv s) (n role : Nat) :
    SysInv ⟨n, s.threadpool, s.actors ++ [⟨false, false, [], role, 0⟩]⟩ := by
  have key : ∀ (j : Nat) (a : actor_t),
      (s.actors ++ [(⟨false, false, [], role, 0⟩ : actor_t)])[j]? = some a →
      s.actors[j]? = some a ∨ (j = s.actors.length ∧ a = ⟨false, false, [], role, 0⟩) := by
    intro j a hj
    rw [List.getElem?_append] at hj
    split at hj
    · exact Or.inl hj
    · rename_i hge
      have hge := Nat.le_of_not_lt hge
      rcases Nat.eq_or_lt_of_le hge with he | hl
      · rw [← he] at hj
        simp only [Nat.sub_self, List.getElem?_cons_zero, Option.some.injEq] at hj
        exact Or.inr ⟨he.symm, hj.symm⟩
      · have : 1 ≤ j - s.actors.length := by omega
        rw [List.getElem?_eq_none (by simpa using this)] at hj
        cases hj
  refine ⟨?_, ?_, ?_⟩
  · intro j hj
    have := hs.in_range j hj
    simp only [List.length_append, List.length_singleton]
    omega
  · intro j a hj
    rcases key j a hj with h | ⟨hj1, ha1⟩
    · exact hs.tickets j a h
    · subst ha1
      simp only [Bool.false_eq_true, if_false, List.count_eq_zero]
      intro hmem
      have := hs.in_range j hmem
      omega
  · intro j a hj hsched
    rcases key j a hj with h | ⟨hj1, ha1⟩
    · exact hs.nonempty j a h hsched
    · subst ha1
      cases hsched

theorem sysinv_modify (s : actor_system_t) (hs : SysInv s) (id : Nat) (actor : actor_t)
    (ha : s.actors[id]? = some actor) (n : Nat) (d : Bool) (r sp : Nat) :
    SysInv ⟨n, s.threadpool, s.actors.set id ⟨d, actor.is_scheduled, actor.queue, r, sp⟩⟩ := by
  have hlt := getElem?_lt_length _ _ _ ha
  refine ⟨?_, ?_, ?_⟩
  · intro j hj
    simp only [List.length_set]
    exact hs.in_range j hj
  · intro j a hj
    by_cases hji : j = id
    · subst hji
      simp only [List.getElem?_set, hlt, if_true, Option.some.injEq] at hj
      subst hj
      exact hs.tickets j actor ha
    · rw [List.getElem?_set_ne (Ne.symm hji)] at hj
      exact hs.tickets j a hj
  · intro j a hj hsched
    by_cases hji : j = id
    · subst hji
      simp only [List.getElem?_set, hlt, if_true, Option.some.injEq] at hj
      subst hj
      exact hs.nonempty j actor ha hsched
    · rw [List.getElem?_set_ne (Ne.symm hji)] at hj
      exact hs.nonempty j a hj hsched

theorem sysinv_counter (s : actor_system_t) (hs : SysInv s) (n : Nat) :
    SysInv ⟨n, s.threadpool, s.actors⟩ :=
  ⟨hs.in_range, hs.tickets, hs.nonempty⟩

/-- The record a first critical section leaves for the actor it serves (before a
possible `is_dead = true`). -/
theorem threadpool_worker_job_first_eq (cfg : Config) (s : actor_system_t) (id : Nat) (actor : actor_t)
    (m : message_t) (rest : List message_t) (ha : s.actors[id]? = some actor)
    (hq : actor.queue = m :: rest) :
    threadpool_worker_job_first cfg s id true true =
      if m.message_type = cfg.MSG_SPAWN then
        some (⟨(s.number_of_active_actors + 1) % UINT_MODULUS, s.threadpool,
                s.actors.set id ⟨actor.is_dead, false, rest, actor.role, actor.stateptr⟩ ++
                  [⟨false, false, [], m.data, 0⟩]⟩,
              ⟨id, m, .hello_pending s.actors.length⟩)
      else if m.message_type = cfg.MSG_GODIE then
        some (⟨s.number_of_active_actors, s.threadpool,
                s.actors.set id ⟨true, false, rest, actor.role, actor.stateptr⟩⟩,
              ⟨id, m, .wrap_up⟩)
      else if has_handler cfg actor.role m = true then
        some (⟨s.number_of_active_actors, s.threadpool,
                s.actors.set id ⟨actor.is_dead, false, rest, actor.role, actor.stateptr⟩⟩,
              ⟨id, m, .in_handler⟩)
      else none := by
  by_cases h1 : m.message_type = cfg.MSG_SPAWN
  · simp [threadpool_worker_job_first, ha, hq, queue_pop, h1, create_empty_actor, vec_length]
  · by_cases h2 : m.message_type = cfg.MSG_GODIE
    · have h3 : ¬ cfg.MSG_GODIE = cfg.MSG_SPAWN := fun h => h1 (h2.trans h)
      simp [threadpool_worker_job_first, ha, hq, queue_pop, h2, h3, List.set_set]
    · cases hn : cfg.nprompts_at actor.role with
      | none => simp [threadpool_worker_job_first, ha, hq, queue_pop, h1, h2, has_handler, hn]
      | some n =>
        by_cases hlt : m.message_type < n <;>
          simp [threadpool_worker_job_first, ha, hq, queue_pop, h1, h2, has_handler, hn, hlt]

theorem threadpool_worker_job_first_some (cfg : Config) (s : actor_system_t) (id : Nat) (b1 b2 : Bool)
    (s1 : actor_system_t) (job : Job) (h : threadpool_worker_job_first cfg s id b1 b2 = some (s1, job)) :
    ∃ actor m rest, s.actors[id]? = some actor ∧ actor.queue = m :: rest := by
  unfold threadpool_worker_job_first at h
  cases ha : s.actors[id]? with
  | none => simp [ha] at h
  | some actor =>
    cases hq : actor.queue with
    | nil => simp [ha, hq, queue_pop] at h
    | cons m rest => exact ⟨actor, m, rest, rfl, hq⟩

theorem threadpool_worker_job_second_eq (s : actor_system_t) (id : Nat) (actor : actor_t)
    (ha : s.actors[id]? = some actor) :
    threadpool_worker_job_second s id true =
      some (if actor.queue ≠ [] ∧ actor.is_scheduled = false then
              ⟨s.number_of_active_actors, s.threadpool ++ [id],
                s.actors.set id
                  ⟨actor.is_dead, true, actor.queue, actor.role, actor.stateptr⟩⟩
            else if actor.is_dead = true ∧ actor.queue = [] then
              ⟨(s.number_of_active_actors + (UINT_MODULUS - 1)) % UINT_MODULUS, s.threadpool,
                s.actors⟩
            else s) := by
  cases hq : actor.queue <;> cases hs : actor.is_scheduled <;> cases hd : actor.is_dead <;>
    simp [threadpool_worker_job_second, ha, hq, hs, hd, queue_is_empty, threadpool_schedule]

theorem threadpool_worker_job_second_some (s : actor_system_t) (id : Nat) (b : Bool)
    (s1 : actor_system_t) (h : threadpool_worker_job_second s id b = some s1) :
    ∃ actor, s.actors[id]? = some actor := by
  unfold threadpool_worker_job_second at h
  cases ha : s.actors[id]? with
  | none => simp [ha] at h
  | some actor => exact ⟨actor, rfl⟩

theorem send_message_sysinv (cfg : Config) (s : actor_system_t) (hs : SysInv s) (id : Nat)
    (msg : message_t) (b1 b2 : Bool) (s1 : actor_system_t) (r : Int)
    (h : send_message cfg s id msg b1 b2 = some (s1, r)) : SysInv s1 := by
  rcases send_message_returned cfg s id msg b1 b2 s1 r h with h1 | h1 | h1
  · rw [h1.2.1]; exact hs
  · rw [h1.2.1]; exact hs
  · obtain ⟨-, actor, ha, hd, -, he⟩ := h1
    rw [he]
    exact sysinv_schedule s hs id actor ha _ false _ _ _ (by simp)

theorem threadpool_worker_job_first_sysinv (cfg : Config) (s : actor_system_t) (hs : SysInv s)
    (k id : Nat) (hk : s.threadpool[k]? = some id) (s1 : actor_system_t) (job : Job)
    (h : threadpool_worker_job_first cfg { s with threadpool := s.threadpool.eraseIdx k } id true true =
      some (s1, job)) : SysInv s1 := by
  obtain ⟨actor, m, rest, ha, hq⟩ := threadpool_worker_job_first_some cfg _ id true true s1 job h
  rw [threadpool_worker_job_first_eq cfg _ id actor m rest ha hq] at h
  have base := fun d => sysinv_unschedule s hs k id actor hk ha s.number_of_active_actors d rest
    actor.role actor.stateptr
  split at h
  · simp only [Option.some.injEq, Prod.mk.injEq] at h
    rw [← h.1]
    exact sysinv_append _ (base actor.is_dead) _ m.data
  · split at h
    · simp only [Option.some.injEq, Prod.mk.injEq] at h
      rw [← h.1]; exact base true
    · split at h
      · simp only [Option.some.injEq, Prod.mk.injEq] at h
        rw [← h.1]; exact base actor.is_dead
      · cases h

theorem threadpool_worker_job_second_sysinv (s : actor_system_t) (hs : SysInv s) (id : Nat)
    (s1 : actor_system_t) (h : threadpool_worker_job_second s id true = some s1) : SysInv s1 := by
  obtain ⟨actor, ha⟩ := threadpool_worker_job_second_some s id true s1 h
  rw [threadpool_worker_job_second_eq s id actor ha] at h
  simp only [Option.some.injEq] at h
  split at h
  · rename_i hc
    rw [← h]
    have := sysinv_schedule s hs id actor ha s.number_of_active_actors actor.is_dead actor.queue
      actor.role actor.stateptr hc.1
    simpa [hc.2] using this
  · split at h
    · rw [← h]; exact sysinv_counter s hs _
    · rw [← h]; exact hs

theorem mailbox_of_set (s s1 : actor_system_t) (id : Nat) (a : actor_t) (j : Nat)
    (h1 : s1.actors = s.actors.set id a) (hlt : id < s.actors.length) :
    mailbox s1 j = if j = id then a.queue else mailbox s j := by
  unfold mailbox
  rw [h1]
  by_cases hj : j = id
  · subst hj; simp [List.getElem?_set, hlt]
  · simp [List.getElem?_set_ne (Ne.symm hj), hj]

theorem is_dead_at_of_set (s s1 : actor_system_t) (id : Nat) (a : actor_t) (j : Nat)
    (h1 : s1.actors = s.actors.set id a) (hlt : id < s.actors.length) :
    is_dead_at s1 j = if j = id then a.is_dead else is_dead_at s j := by
  unfold is_dead_at
  rw [h1]
  by_cases hj : j = id
  · subst hj; simp [List.getElem?_set, hlt]
  · simp [List.getElem?_set_ne (Ne.symm hj), hj]

theorem mailbox_out_of_range (s : actor_system_t) (j : Nat) (h : s.actors.length ≤ j) :
    mailbox s j = [] := by
  simp [mailbox, List.getElem?_eq_none h]

theorem is_dead_at_out_of_range (s : actor_system_t) (j : Nat) (h : s.actors.length ≤ j) :
    is_dead_at s j = false := by
  simp [is_dead_at, List.getElem?_eq_none h]

theorem mailbox_of_getElem? (s : actor_system_t) (j : Nat) (a : actor_t)
    (h : s.actors[j]? = some a) : mailbox s j = a.queue := by
  simp [mailbox, h]

theorem is_dead_at_of_getElem? (s : actor_system_t) (j : Nat) (a : actor_t)
    (h : s.actors[j]? = some a) : is_dead_at s j = a.is_dead := by
  simp [is_dead_at, h]

theorem mailbox_of_append (s s1 : actor_system_t) (a : actor_t) (j : Nat)
    (h1 : s1.actors = s.actors ++ [a]) :
    mailbox s1 j = if j = s.actors.length then a.queue else mailbox s j := by
  unfold mailbox
  rw [h1, List.getElem?_append]
  by_cases hlt : j < s.actors.length
  · have hne : j ≠ s.actors.length := Nat.ne_of_lt hlt
    simp [hlt, hne]
  · by_cases he : j = s.actors.length
    · subst he; simp
    · have hge : s.actors.length ≤ j := Nat.le_of_not_lt hlt
      have h1 : 1 ≤ j - s.actors.length := by omega
      simp [hlt, he, List.getElem?_eq_none hge, List.getElem?_eq_none (l := [a]) (by simpa using h1)]

theorem is_dead_at_of_append (s s1 : actor_system_t) (a : actor_t) (j : Nat)
    (h1 : s1.actors = s.actors ++ [a]) :
    is_dead_at s1 j = if j = s.actors.length then a.is_dead else is_dead_at s j := by
  unfold is_dead_at
  rw [h1, List.getElem?_append]
  by_cases hlt : j < s.actors.length
  · have hne : j ≠ s.actors.length := Nat.ne_of_lt hlt
    simp [hlt, hne]
  · by_cases he : j = s.actors.length
    · subst he; simp
    · have hge : s.actors.length ≤ j := Nat.le_of_not_lt hlt
      have h1 : 1 ≤ j - s.actors.length := by omega
      simp [hlt, he, List.getElem?_eq_none hge, List.getElem?_eq_none (l := [a]) (by simpa using h1)]

theorem loginv_popped_fresh (s : actor_system_t) (log : List Obs) (h : LogInv s log) (id : Nat)
    (hid : s.actors.length ≤ id) : popped id log = [] := by
  have h1 := h.fifo id
  rw [h.fresh id hid, mailbox_out_of_range s id hid] at h1
  simpa using h1.symm

theorem loginv_same_actors (s s1 : actor_system_t) (log : List Obs) (h : LogInv s log)
    (h1 : s1.actors = s.actors) : LogInv s1 log := by
  refine ⟨?_, ?_, ?_⟩
  · intro id
    have : mailbox s1 id = mailbox s id := by simp [mailbox, h1]
    rw [this]; exact h.fifo id
  · intro id hid
    rw [h1] at hid; exact h.fresh id hid
  · intro id hd
    have : is_dead_at s1 id = is_dead_at s id := by simp [is_dead_at, h1]
    rw [this] at hd; exact h.dead_popped id hd

theorem loginv_accept (s s1 : actor_system_t) (log : List Obs) (h : LogInv s log) (id : Nat)
    (actor : actor_t) (ha : s.actors[id]? = some actor) (msg : message_t) (b : Bool)
    (r sp : Nat)
    (h1 : s1.actors = s.actors.set id ⟨actor.is_dead, b, actor.queue ++ [msg], r, sp⟩) :
    LogInv s1 (log ++ [.sent id msg 0]) := by
  have hlt := getElem?_lt_length _ _ _ ha
  refine ⟨?_, ?_, ?_⟩
  · intro j
    rw [accepted_append, popped_append, mailbox_of_set s s1 id _ j h1 hlt, h.fifo j]
    by_cases hj : j = id
    · subst hj
      simp [accepted, popped, mailbox_of_getElem? s j actor ha]
    · simp [accepted, popped, hj, Ne.symm hj]
  · intro j hj
    rw [h1, List.length_set] at hj
    have hne : ¬ id = j := by omega
    rw [accepted_append, h.fresh j hj]
    simp [accepted, hne]
  · intro j hd
    rw [is_dead_at_of_set s s1 id _ j h1 hlt] at hd
    rw [popped_append]
    have : is_dead_at s j = true := by
      by_cases hj : j = id
      · subst hj
        simpa [is_dead_at_of_getElem? s j actor ha] using hd
      · simpa [hj] using hd
    simpa [popped] using h.dead_popped j this

theorem loginv_refuse (s : actor_system_t) (log : List Obs) (h : LogInv s log) (id : Nat)
    (msg : message_t) (r : Int) (hr : r ≠ 0) : LogInv s (log ++ [.sent id msg r]) := by
  refine ⟨?_, ?_, ?_⟩
  · intro j
    rw [accepted_append, popped_append, h.fifo j]
    simp [accepted, popped, hr]
  · intro j hj
    rw [accepted_append, h.fresh j hj]
    simp [accepted, hr]
  · intro j hd
    rw [popped_append]
    simpa [popped] using h.dead_popped j hd

theorem loginv_pop (s s1 : actor_system_t) (log : List Obs) (h : LogInv s log) (id : Nat)
    (actor : actor_t) (ha : s.actors[id]? = some actor) (m : message_t)
    (rest : List message_t) (hq : actor.queue = m :: rest) (d b c : Bool) (r sp : Nat)
    (h1 : s1.actors = s.actors.set id ⟨d, b, rest, r, sp⟩) :
    LogInv s1 (log ++ .popped id m :: (if c then [.invoked id m] else [])) := by
  have hlt := getElem?_lt_length _ _ _ ha
  have hacc : ∀ j, accepted j (Obs.popped id m :: (if c then [Obs.invoked id m] else [])) = [] := by
    intro j; cases c <;> simp [accepted]
  have hpop : ∀ j, popped j (Obs.popped id m :: (if c then [Obs.invoked id m] else [])) =
      if id = j then [m] else [] := by
    intro j; cases c <;> by_cases hj : id = j <;> simp [popped, hj]
  refine ⟨?_, ?_, ?_⟩
  · intro j
    rw [accepted_append, popped_append, hacc, hpop, mailbox_of_set s s1 id _ j h1 hlt, h.fifo j]
    by_cases hj : j = id
    · subst hj
      simp [mailbox_of_getElem? s j actor ha, hq]
    · simp [hj, Ne.symm hj]
  · intro j hj
    rw [h1, List.length_set] at hj
    rw [accepted_append, hacc, h.fresh j hj]
    rfl
  · intro j hd
    rw [popped_append, hpop]
    by_cases hj : j = id
    · subst hj; simp
    · rw [is_dead_at_of_set s s1 id _ j h1 hlt] at hd
      simp only [hj, if_false] at hd
      simpa [Ne.symm hj] using h.dead_popped j hd

theorem loginv_append (s s1 : actor_system_t) (log : List Obs) (h : LogInv s log) (role : Nat)
    (h1 : s1.actors = s.actors ++ [⟨false, false, [], role, 0⟩]) : LogInv s1 log := by
  refine ⟨?_, ?_, ?_⟩
  · intro j
    rw [mailbox_of_append s s1 _ j h1]
    by_cases hj : j = s.actors.length
    · have hle : s.actors.length ≤ j := by omega
      rw [h.fresh j hle, loginv_popped_fresh s log h j hle]
      simp [hj]
    · simp only [hj, if_false]; exact h.fifo j
  · intro j hj
    rw [h1] at hj
    simp only [List.length_append, List.length_singleton] at hj
    exact h.fresh j (by omega)
  · intro j hd
    rw [is_dead_at_of_append s s1 _ j h1] at hd
    by_cases hj : j = s.actors.length
    · simp [hj] at hd
    · simp only [hj, if_false] at hd
      exact h.dead_popped j hd

theorem loginv_modify (s s1 : actor_system_t) (log : List Obs) (h : LogInv s log) (id : Nat)
    (actor : actor_t) (ha : s.actors[id]? = some actor) (b : Bool) (r sp : Nat)
    (h1 : s1.actors = s.actors.set id ⟨actor.is_dead, b, actor.queue, r, sp⟩) :
    LogInv s1 log := by
  have hlt := getElem?_lt_length _ _ _ ha
  refine ⟨?_, ?_, ?_⟩
  · intro j
    rw [mailbox_of_set s s1 id _ j h1 hlt, h.fifo j]
    by_cases hj : j = id
    · subst hj; simp [mailbox_of_getElem? s j actor ha]
    · simp [hj]
  · intro j hj
    rw [h1, List.length_set] at hj
    exact h.fresh j hj
  · intro j hd
    rw [is_dead_at_of_set s s1 id _ j h1 hlt] at hd
    by_cases hj : j = id
    · subst hj
      simp only [if_true] at hd
      exact h.dead_popped j (by rw [is_dead_at_of_getElem? s j actor ha]; exact hd)
    · simp only [hj, if_false] at hd
      exact h.dead_popped j hd

theorem send_message_hist (cfg : Config) (s : actor_system_t) (log : List Obs) (id : Nat)
    (msg : message_t) (s1 : actor_system_t) (r : Int)
    (h : send_message cfg s id msg true true = some (s1, r)) (hl : LogInv s log) :
    LogInv s1 (log ++ [.sent id msg r]) ∧ s1.actors.length = s.actors.length := by
  rcases send_message_returned cfg s id msg true true s1 r h with h1 | h1 | h1
  · obtain ⟨hr, hs, -⟩ := h1
    rw [hs]
    exact ⟨loginv_refuse s log hl id msg r (by omega), rfl⟩
  · obtain ⟨hr, hs, -⟩ := h1
    rw [hs]
    exact ⟨loginv_refuse s log hl id msg r (by omega), rfl⟩
  · obtain ⟨hr, actor, ha, hd, -, he⟩ := h1
    subst hr
    have h1 : s1.actors =
        s.actors.set id ⟨actor.is_dead, true, actor.queue ++ [msg], actor.role, actor.stateptr⟩ := by
      rw [he, hd]
    refine ⟨loginv_accept s s1 log hl id actor ha msg true _ _ h1, ?_⟩
    rw [h1, List.length_set]

theorem threadpool_worker_job_first_hist (cfg : Config) (s : actor_system_t) (log : List Obs) (id : Nat)
    (s1 : actor_system_t) (job : Job) (h : threadpool_worker_job_first cfg s id true true = some (s1, job))
    (hl : LogInv s log) :
    LogInv s1 (log ++ .popped id job.m ::
        (if job.stage = .in_handler then [.invoked id job.m] else [])) ∧
      s.actors.length ≤ s1.actors.length ∧ job.actor_id = id ∧ id < s.actors.length ∧
      (∀ n, job.stage = .hello_pending n → n < s1.actors.length) := by
  obtain ⟨actor, m, rest, ha, hq⟩ := threadpool_worker_job_first_some cfg s id true true s1 job h
  have hlt := getElem?_lt_length _ _ _ ha
  rw [threadpool_worker_job_first_eq cfg s id actor m rest ha hq] at h
  split at h
  · simp only [Option.some.injEq, Prod.mk.injEq] at h
    obtain ⟨hs, hj⟩ := h
    subst hs hj
    refine ⟨?_, by simp, rfl, hlt, ?_⟩
    · have hmid : LogInv
          ⟨s.number_of_active_actors, s.threadpool,
            s.actors.set id ⟨actor.is_dead, false, rest, actor.role, actor.stateptr⟩⟩
          (log ++ .popped id m :: (if false then [.invoked id m] else [])) :=
        loginv_pop s _ log hl id actor ha m rest hq actor.is_dead false false _ _ rfl
      have := loginv_append _ ⟨(s.number_of_active_actors + 1) % UINT_MODULUS, s.threadpool,
        s.actors.set id ⟨actor.is_dead, false, rest, actor.role, actor.stateptr⟩ ++
          [⟨false, false, [], m.data, 0⟩]⟩ _ hmid m.data rfl
      simpa using this
    · intro n hn
      simp only [Stage.hello_pending.injEq] at hn
      subst hn
      simp
  · split at h
    · simp only [Option.some.injEq, Prod.mk.injEq] at h
      obtain ⟨hs, hj⟩ := h
      subst hs hj
      refine ⟨?_, by simp, rfl, hlt, ?_⟩
      · have := loginv_pop s ⟨s.number_of_active_actors, s.threadpool,
            s.actors.set id ⟨true, false, rest, actor.role, actor.stateptr⟩⟩ log hl id actor ha m
            rest hq true false false _ _ rfl
        simpa using this
      · intro n hn; cases hn
    · split at h
      · simp only [Option.some.injEq, Prod.mk.injEq] at h
        obtain ⟨hs, hj⟩ := h
        subst hs hj
        refine ⟨?_, by simp, rfl, hlt, ?_⟩
        · have := loginv_pop s ⟨s.number_of_active_actors, s.threadpool,
              s.actors.set id ⟨actor.is_dead, false, rest, actor.role, actor.stateptr⟩⟩ log hl
              id actor ha m rest hq actor.is_dead false true _ _ rfl
          simpa using this
        · intro n hn; cases hn
      · cases h

theorem threadpool_worker_job_second_hist (s : actor_system_t) (log : List Obs) (id : Nat)
    (s1 : actor_system_t) (h : threadpool_worker_job_second s id true = some s1) (hl : LogInv s log) :
    LogInv s1 log ∧ s1.actors.length = s.actors.length := by
  obtain ⟨actor, ha⟩ := threadpool_worker_job_second_some s id true s1 h
  rw [threadpool_worker_job_second_eq s id actor ha] at h
  simp only [Option.some.injEq] at h
  split at h
  · subst h
    exact ⟨loginv_modify s _ log hl id actor ha true _ _ rfl, by simp⟩
  · split at h
    · subst h
      exact ⟨loginv_same_actors s _ log hl rfl, rfl⟩
    · subst h
      exact ⟨hl, rfl⟩

theorem step_inv (cfg : Config) (w : World) (log : List Obs) (e : Event) (w1 : World)
    (obs : List Obs) (hi : Inv w log) (h : step cfg w e = some (w1, obs)) :
    Inv w1 (log ++ obs) := by
  cases e with
  | send id msg =>
    simp only [step] at h
    cases hr : send_message cfg w.sys id msg true true with
    | none => simp [hr] at h
    | some p =>
      obtain ⟨s, r⟩ := p
      simp only [hr, Option.some.injEq, Prod.mk.injEq] at h
      obtain ⟨hw, ho⟩ := h
      subst hw ho
      obtain ⟨hh, hlen⟩ := send_message_hist cfg w.sys log id msg s r hr hi.hist
      refine ⟨send_message_sysinv cfg w.sys hi.sys id msg true true s r hr, ?_, ?_, hh⟩
      · intro job hj
        simp only [hlen]
        exact hi.jobs_in_range job hj
      · intro job hj n hn
        simp only [hlen]
        exact hi.hello_in_range job hj n hn
  | job_start k =>
    simp only [step] at h
    split at h
    · cases h
    · cases hk : w.sys.threadpool[k]? with
      | none => simp [hk] at h
      | some id =>
        simp only [hk] at h
        cases hr : threadpool_worker_job_first cfg
            { w.sys with threadpool := w.sys.threadpool.eraseIdx k } id true true with
        | none => simp [hr] at h
        | some p =>
          obtain ⟨s, job⟩ := p
          simp only [hr, Option.some.injEq, Prod.mk.injEq] at h
          obtain ⟨hw, ho⟩ := h
          subst hw ho
          have hl0 : LogInv { w.sys with threadpool := w.sys.threadpool.eraseIdx k } log :=
            loginv_same_actors w.sys _ log hi.hist rfl
          obtain ⟨hh, hlen, hjid, hlt, hhello⟩ :=
            threadpool_worker_job_first_hist cfg _ log id s job hr hl0
          refine ⟨threadpool_worker_job_first_sysinv cfg w.sys hi.sys k id hk s job hr, ?_, ?_, hh⟩
          · intro job1 hj
            simp only [List.mem_append, List.mem_singleton] at hj
            rcases hj with hj | hj
            · exact Nat.lt_of_lt_of_le (hi.jobs_in_range job1 hj) hlen
            · subst hj
              rw [hjid]
              exact Nat.lt_of_lt_of_le hlt hlen
          · intro job1 hj n hn
            simp only [List.mem_append, List.mem_singleton] at hj
            rcases hj with hj | hj
            · exact Nat.lt_of_lt_of_le (hi.hello_in_range job1 hj n hn) hlen
            · subst hj
              exact hhello n hn
  | job_hello j =>
    simp only [step] at h
    split at h
    · rename_i id m new_id hj
      cases hr : send_message cfg w.sys new_id (hello_message cfg id) true true with
      | none => simp [hr] at h
      | some p =>
        obtain ⟨s, r⟩ := p
        simp only [hr, Option.some.injEq, Prod.mk.injEq] at h
        obtain ⟨hw, ho⟩ := h
        subst hw ho
        obtain ⟨hh, hlen⟩ := send_message_hist cfg w.sys log new_id _ s r hr hi.hist
        refine ⟨send_message_sysinv cfg w.sys hi.sys new_id _ true true s r hr, ?_, ?_, hh⟩
        · intro job hmem
          simp only [hlen]
          rcases List.mem_or_eq_of_mem_set hmem with hm | hm
          · exact hi.jobs_in_range job hm
          · subst hm
            exact hi.jobs_in_range ⟨id, m, .hello_pending new_id⟩ (List.getElem?_mem hj)
        · intro job hmem n hn
          simp only [hlen]
          rcases List.mem_or_eq_of_mem_set hmem with hm | hm
          · exact hi.hello_in_range job hm n hn
          · subst hm; cases hn
    · cases h
  | handler_store j v =>
    simp only [step] at h
    split at h
    · rename_i id m hj
      cases ha : w.sys.actors[id]? with
      | none => simp [ha] at h
      | some actor =>
        simp only [ha, Option.some.injEq, Prod.mk.injEq] at h
        obtain ⟨hw, ho⟩ := h
        subst hw ho
        rw [List.append_nil]
        refine ⟨sysinv_modify w.sys hi.sys id actor ha _ actor.is_dead actor.role v, ?_, ?_, ?_⟩
        · intro job hmem
          simp only [List.length_set]
          exact hi.jobs_in_range job hmem
        · intro job hmem n hn
          simp only [List.length_set]
          exact hi.hello_in_range job hmem n hn
        · exact loginv_modify w.sys _ log hi.hist id actor ha actor.is_scheduled actor.role v rfl
    · cases h
  | job_finish j =>
    simp only [step] at h
    have key : ∀ id : Nat, (match threadpool_worker_job_second w.sys id true with
        | none => none
        | some s => some ((⟨s, w.jobs.eraseIdx j⟩ : World), ([] : List Obs))) = some (w1, obs) →
        Inv w1 (log ++ obs) := by
      intro id h
      cases hr : threadpool_worker_job_second w.sys id true with
      | none => simp [hr] at h
      | some s =>
        simp only [hr, Option.some.injEq, Prod.mk.injEq] at h
        obtain ⟨hw, ho⟩ := h
        subst hw ho
        rw [List.append_nil]
        obtain ⟨hh, hlen⟩ := threadpool_worker_job_second_hist w.sys log id s hr hi.hist
        refine ⟨threadpool_worker_job_second_sysinv w.sys hi.sys id s hr, ?_, ?_, hh⟩
        · intro job hmem
          simp only [hlen]
          exact hi.jobs_in_range job (List.eraseIdx_subset _ _ hmem)
        · intro job hmem n hn
          simp only [hlen]
          exact hi.hello_in_range job (List.eraseIdx_subset _ _ hmem) n hn
    split at h
    · exact key _ h
    · exact key _ h
    · cases h

theorem boot_eq (cfg : Config) (role : Nat) :
    boot cfg role =
      some (⟨⟨1, [0], [⟨false, true, [⟨cfg.MSG_HELLO, 0, 0⟩], role, 0⟩]⟩, []⟩,
            [.sent 0 ⟨cfg.MSG_HELLO, 0, 0⟩ 0]) := by
  have hcap : 0 < cfg.MAILBOX_CAPACITY := Nat.lt_of_lt_of_le (by decide) cfg.capacity_ge
  simp [boot, actor_system_create, create_empty_actor, send_message, vec_length, queue_push,
    threadpool_schedule, UINT_MODULUS, hcap]

theorem boot_inv (cfg : Config) (role : Nat) (w : World) (log : List Obs)
    (h : boot cfg role = some (w, log)) : Inv w log := by
  rw [boot_eq] at h
  simp only [Option.some.injEq, Prod.mk.injEq] at h
  obtain ⟨hw, hl⟩ := h
  subst hw hl
  refine ⟨⟨?_, ?_, ?_⟩, ?_, ?_, ⟨?_, ?_, ?_⟩⟩
  · intro id hid
    simp only [List.mem_singleton] at hid
    subst hid; simp
  · intro id actor ha
    cases id with
    | zero =>
      simp only [List.getElem?_cons_zero, Option.some.injEq] at ha
      subst ha; simp
    | succ n => simp at ha
  · intro id actor ha _
    cases id with
    | zero =>
      simp only [List.getElem?_cons_zero, Option.some.injEq] at ha
      subst ha; simp
    | succ n => simp at ha
  · intro job hj; simp at hj
  · intro job hj; simp at hj
  · intro id
    cases id with
    | zero => simp [accepted, popped, mailbox]
    | succ n => simp [accepted, popped, mailbox]
  · intro id hid
    have : ¬ 0 = id := by
      simp only [List.length_singleton] at hid
      omega
    simp [accepted, this]
  · intro id hd
    cases id with
    | zero => simp [is_dead_at] at hd
    | succ n => simp [is_dead_at] at hd

theorem exec_inv (cfg : Config) (es : List Event) (w : World) (log : List Obs) (w1 : World)
    (log1 : List Obs) (hi : Inv w log) (h : exec cfg w log es = some (w1, log1)) :
    Inv w1 log1 := by
  induction es generalizing w log with
  | nil =>
    simp only [exec, Option.some.injEq, Prod.mk.injEq] at h
    obtain ⟨hw, hl⟩ := h
    subst hw hl
    exact hi
  | cons e rest ih =>
    simp only [exec] at h
    cases hs : step cfg w e with
    | none => simp [hs] at h
    | some p =>
      obtain ⟨w2, obs⟩ := p
      simp only [hs] at h
      exact ih w2 (log ++ obs) (step_inv cfg w log e w2 obs hi hs) h

theorem exec_append (cfg : Config) (es1 es2 : List Event) (w : World) (log : List Obs) :
    exec cfg w log (es1 ++ es2) =
      (exec cfg w log es1).bind (fun p => exec cfg p.1 p.2 es2) := by
  induction es1 generalizing w log with
  | nil => simp [exec]
  | cons e rest ih =>
    simp only [List.cons_append, exec]
    cases hs : step cfg w e with
    | none => simp
    | some p => simpa using ih p.1 (log ++ p.2)

theorem exec_log (cfg : Config) (es : List Event) (w : World) (log : List Obs) (w1 : World)
    (log1 : List Obs) (h : exec cfg w log es = some (w1, log1)) :
    ∃ ext, log1 = log ++ ext := by
  induction es generalizing w log with
  | nil =>
    simp only [exec, Option.some.injEq, Prod.mk.injEq] at h
    exact ⟨[], by simp [h.2]⟩
  | cons e rest ih =>
    simp only [exec] at h
    cases hs : step cfg w e with
    | none => simp [hs] at h
    | some p =>
      obtain ⟨w2, obs⟩ := p
      simp only [hs] at h
      obtain ⟨ext, he⟩ := ih w2 (log ++ obs) h
      exact ⟨obs ++ ext, by rw [he, List.append_assoc]⟩

theorem reachable_inv (cfg : Config) (w : World) (log : List Obs) (h : Reachable cfg w log) :
    Inv w log := by
  obtain ⟨role, w0, log0, es, hb, he⟩ := h
  exact exec_inv cfg es w0 log0 w log (boot_inv cfg role w0 log0 hb) he

theorem reachable_exec (cfg : Config) (w : World) (log : List Obs) (h : Reachable cfg w log)
    (es : List Event) (w1 : World) (log1 : List Obs)
    (he : exec cfg w log es = some (w1, log1)) : Reachable cfg w1 log1 := by
  obtain ⟨role, w0, log0, es0, hb, h0⟩ := h
  refine ⟨role, w0, log0, es0 ++ es, hb, ?_⟩
  rw [exec_append, h0]
  exact he

theorem reachable_step (cfg : Config) (w : World) (log : List Obs) (h : Reachable cfg w log)
    (e : Event) (w1 : World) (obs : List Obs) (hs : step cfg w e = some (w1, obs)) :
    Reachable cfg w1 (log ++ obs) := by
  apply reachable_exec cfg w log h [e] w1 (log ++ obs)
  simp [exec, hs]

theorem reachable_of_run (cfg : Config) (role : Nat) (es : List Event) (w : World)
    (log : List Obs) (h : run cfg role es = some (w, log)) : Reachable cfg w log := by
  unfold run at h
  rw [boot_eq] at h
  exact ⟨role, _, _, es, boot_eq cfg role, h⟩

theorem send_message_frame (cfg : Config) (s : actor_system_t) (id : Nat) (msg : message_t)
    (s1 : actor_system_t) (r : Int) (h : send_message cfg s id msg true true = some (s1, r))
    (A : Nat) :
    is_dead_at s1 A = is_dead_at s A ∧
      mailbox s1 A = mailbox s A ++ (if id = A ∧ r = 0 then [msg] else []) := by
  rcases send_message_returned cfg s id msg true true s1 r h with h1 | h1 | h1
  · obtain ⟨hr, hs, -⟩ := h1
    rw [hs]
    have : ¬ (id = A ∧ r = 0) := by omega
    simp [this]
  · obtain ⟨hr, hs, -⟩ := h1
    rw [hs]
    have : ¬ (id = A ∧ r = 0) := by omega
    simp [this]
  · obtain ⟨hr, actor, ha, hd, -, he⟩ := h1
    have hlt := getElem?_lt_length _ _ _ ha
    have h1 : s1.actors =
        s.actors.set id ⟨false, true, actor.queue ++ [msg], actor.role, actor.stateptr⟩ := by
      rw [he]
    rw [is_dead_at_of_set s s1 id _ A h1 hlt, mailbox_of_set s s1 id _ A h1 hlt]
    by_cases hA : A = id
    · subst hA
      simp [is_dead_at_of_getElem? s A actor ha, mailbox_of_getElem? s A actor ha, hd, hr]
    · simp [hA, Ne.symm hA]

theorem threadpool_worker_job_first_frame (cfg : Config) (s : actor_system_t) (id : Nat)
    (s1 : actor_system_t) (job : Job) (h : threadpool_worker_job_first cfg s id true true = some (s1, job))
    (A : Nat) :
    (is_dead_at s A = true → is_dead_at s1 A = true) ∧
      mailbox s A = (if id = A then [job.m] else []) ++ mailbox s1 A ∧
      (A = id → job.m.message_type = cfg.MSG_GODIE → cfg.MSG_GODIE ≠ cfg.MSG_SPAWN →
        is_dead_at s1 A = true) := by
  obtain ⟨actor, m, rest, ha, hq⟩ := threadpool_worker_job_first_some cfg s id true true s1 job h
  have hlt := getElem?_lt_length _ _ _ ha
  rw [threadpool_worker_job_first_eq cfg s id actor m rest ha hq] at h
  have hset : ∀ (d : Bool) (s2 : actor_system_t),
      s2.actors = s.actors.set id ⟨d, false, rest, actor.role, actor.stateptr⟩ →
      (d = true ∨ d = actor.is_dead) →
      (is_dead_at s A = true → is_dead_at s2 A = true) ∧
        mailbox s A = (if id = A then [m] else []) ++ mailbox s2 A := by
    intro d s2 h2 hd
    rw [is_dead_at_of_set s s2 id _ A h2 hlt, mailbox_of_set s s2 id _ A h2 hlt]
    by_cases hA : A = id
    · subst hA
      rw [is_dead_at_of_getElem? s A actor ha, mailbox_of_getElem? s A actor ha, hq]
      rcases hd with hd | hd <;> simp [hd]
    · simp [hA, Ne.symm hA]
  split at h
  · rename_i hsp
    simp only [Option.some.injEq, Prod.mk.injEq] at h
    obtain ⟨hs, hj⟩ := h
    subst hs hj
    have hmid := hset actor.is_dead ⟨s.number_of_active_actors, s.threadpool,
      s.actors.set id ⟨actor.is_dead, false, rest, actor.role, actor.stateptr⟩⟩ rfl (Or.inr rfl)
    have hd2 := is_dead_at_of_append
      ⟨s.number_of_active_actors, s.threadpool,
        s.actors.set id ⟨actor.is_dead, false, rest, actor.role, actor.stateptr⟩⟩
      ⟨(s.number_of_active_actors + 1) % UINT_MODULUS, s.threadpool,
        s.actors.set id ⟨actor.is_dead, false, rest, actor.role, actor.stateptr⟩ ++
          [⟨false, false, [], m.data, 0⟩]⟩ ⟨false, false, [], m.data, 0⟩ A rfl
    have hm2 := mailbox_of_append
      ⟨s.number_of_active_actors, s.threadpool,
        s.actors.set id ⟨actor.is_dead, false, rest, actor.role, actor.stateptr⟩⟩
      ⟨(s.number_of_active_actors + 1) % UINT_MODULUS, s.threadpool,
        s.actors.set id ⟨actor.is_dead, false, rest, actor.role, actor.stateptr⟩ ++
          [⟨false, false, [], m.data, 0⟩]⟩ ⟨false, false, [], m.data, 0⟩ A rfl
    simp only [List.length_set] at hd2 hm2
    by_cases hA : A = s.actors.length
    · have hge : s.actors.length ≤ A := by omega
      have hne : ¬ id = A := by omega
      refine ⟨?_, ?_, ?_⟩
      · intro hd
        rw [is_dead_at_out_of_range s A hge] at hd
        cases hd
      · rw [hm2, mailbox_out_of_range s A hge]
        simp [hA, hne]
        omega
      · intro h1 h2 h3
        exact absurd (hsp.symm.trans h2).symm h3
    · simp only [hA, if_false] at hd2 hm2
      rw [hd2, hm2]
      refine ⟨hmid.1, hmid.2, ?_⟩
      intro h1 h2 h3
      exact absurd (hsp.symm.trans h2).symm h3
  · split at h
    · simp only [Option.some.injEq, Prod.mk.injEq] at h
      obtain ⟨hs, hj⟩ := h
      subst hs hj
      have hmid := hset true ⟨s.number_of_active_actors, s.threadpool,
        s.actors.set id ⟨true, false, rest, actor.role, actor.stateptr⟩⟩ rfl (Or.inl rfl)
      refine ⟨hmid.1, hmid.2, ?_⟩
      intro h1 _ _
      rw [is_dead_at_of_set s _ id _ A rfl hlt]
      simp [h1]
    · rename_i hsp hgd
      split at h
      · simp only [Option.some.injEq, Prod.mk.injEq] at h
        obtain ⟨hs, hj⟩ := h
        subst hs hj
        have hmid := hset actor.is_dead ⟨s.number_of_active_actors, s.threadpool,
          s.actors.set id ⟨actor.is_dead, false, rest, actor.role, actor.stateptr⟩⟩ rfl
          (Or.inr rfl)
        refine ⟨hmid.1, hmid.2, ?_⟩
        intro _ h2 _
        exact absurd h2 hgd
      · cases h

theorem threadpool_worker_job_second_frame (s : actor_system_t) (id : Nat) (s1 : actor_system_t)
    (h : threadpool_worker_job_second s id true = some s1) (A : Nat) :
    is_dead_at s1 A = is_dead_at s A ∧ mailbox s1 A = mailbox s A := by
  obtain ⟨actor, ha⟩ := threadpool_worker_job_second_some s id true s1 h
  have hlt := getElem?_lt_length _ _ _ ha
  rw [threadpool_worker_job_second_eq s id actor ha] at h
  simp only [Option.some.injEq] at h
  split at h
  · subst h
    rw [is_dead_at_of_set s _ id _ A rfl hlt, mailbox_of_set s _ id _ A rfl hlt]
    by_cases hA : A = id
    · subst hA
      simp [is_dead_at_of_getElem? s A actor ha, mailbox_of_getElem? s A actor ha]
    · simp [hA]
  · split at h
    · subst h
      exact ⟨by simp [is_dead_at], by simp [mailbox]⟩
    · subst h
      exact ⟨rfl, rfl⟩

theorem is_dead_at_true_iff (s : actor_system_t) (A : Nat) :
    is_dead_at s A = true ↔ ∃ actor, s.actors[A]? = some actor ∧ actor.is_dead = true := by
  unfold is_dead_at
  cases h : s.actors[A]? with
  | none => simp
  | some actor => simp

theorem send_message_to_dead (cfg : Config) (s : actor_system_t) (A : Nat) (msg : message_t)
    (b1 b2 : Bool) (hd : is_dead_at s A = true) :
    send_message cfg s A msg b1 b2 = some (s, -1) := by
  obtain ⟨actor, ha, hdead⟩ := (is_dead_at_true_iff s A).1 hd
  exact send_message_dead cfg s A msg b1 b2 actor ha hdead

theorem dead_step (cfg : Config) (w : World) (e : Event) (w1 : World) (obs : List Obs)
    (A : Nat) (hd : is_dead_at w.sys A = true) (h : step cfg w e = some (w1, obs)) :
    is_dead_at w1.sys A = true ∧ mailbox w1.sys A <:+ mailbox w.sys A ∧
      accepted A obs = [] ∧ (∀ msg r, Obs.sent A msg r ∈ obs → r = -1) := by
  have hsend : ∀ (id : Nat) (msg : message_t) (s : actor_system_t) (r : Int),
      send_message cfg w.sys id msg true true = some (s, r) →
      is_dead_at s A = true ∧ mailbox s A <:+ mailbox w.sys A ∧
        accepted A [Obs.sent id msg r] = [] ∧
        (∀ msg1 r1, Obs.sent A msg1 r1 ∈ [Obs.sent id msg r] → r1 = -1) := by
    intro id msg s r hr
    by_cases hA : id = A
    · subst hA
      rw [send_message_to_dead cfg w.sys id msg true true hd] at hr
      simp only [Option.some.injEq, Prod.mk.injEq] at hr
      obtain ⟨hs, hr⟩ := hr
      subst hs hr
      refine ⟨hd, List.suffix_refl _, by simp [accepted], ?_⟩
      intro msg1 r1 hmem
      simp only [List.mem_singleton, Obs.sent.injEq] at hmem
      exact hmem.2.2
    · obtain ⟨h1, h2⟩ := send_message_frame cfg w.sys id msg s r hr A
      refine ⟨by rw [h1]; exact hd, ?_, by simp [accepted, hA], ?_⟩
      · rw [h2]; simp [hA]
      · intro msg1 r1 hmem
        simp only [List.mem_singleton, Obs.sent.injEq] at hmem
        exact absurd hmem.1.symm hA
  cases e with
  | send id msg =>
    simp only [step] at h
    cases hr : send_message cfg w.sys id msg true true with
    | none => simp [hr] at h
    | some p =>
      obtain ⟨s, r⟩ := p
      simp only [hr, Option.some.injEq, Prod.mk.injEq] at h
      obtain ⟨hw, ho⟩ := h
      subst hw ho
      exact hsend id msg s r hr
  | job_start k =>
    simp only [step] at h
    split at h
    · cases h
    · cases hk : w.sys.threadpool[k]? with
      | none => simp [hk] at h
      | some id =>
        simp only [hk] at h
        cases hr : threadpool_worker_job_first cfg
            { w.sys with threadpool := w.sys.threadpool.eraseIdx k } id true true with
        | none => simp [hr] at h
        | some p =>
          obtain ⟨s, job⟩ := p
          simp only [hr, Option.some.injEq, Prod.mk.injEq] at h
          obtain ⟨hw, ho⟩ := h
          subst hw ho
          obtain ⟨h1, h2, -⟩ := threadpool_worker_job_first_frame cfg _ id s job hr A
          have hd0 : is_dead_at
              { w.sys with threadpool := w.sys.threadpool.eraseIdx k } A = true := by
            simpa [is_dead_at] using hd
          have hm0 : mailbox { w.sys with threadpool := w.sys.threadpool.eraseIdx k } A =
              mailbox w.sys A := by
            simp [mailbox]
          refine ⟨h1 hd0, ?_, ?_, ?_⟩
          · rw [← hm0, h2]
            exact List.suffix_append _ _
          · by_cases hc : job.stage = Stage.in_handler <;> simp [accepted, hc]
          · intro msg r hmem
            by_cases hc : job.stage = Stage.in_handler <;> simp [hc] at hmem
  | job_hello j =>
    simp only [step] at h
    split at h
    · rename_i id m new_id hj
      cases hr : send_message cfg w.sys new_id (hello_message cfg id) true true with
      | none => simp [hr] at h
      | some p =>
        obtain ⟨s, r⟩ := p
        simp only [hr, Option.some.injEq, Prod.mk.injEq] at h
        obtain ⟨hw, ho⟩ := h
        subst hw ho
        exact hsend new_id _ s r hr
    · cases h
  | handler_store j v =>
    simp only [step] at h
    split at h
    · rename_i id m hj
      cases ha : w.sys.actors[id]? with
      | none => simp [ha] at h
      | some actor =>
        simp only [ha, Option.some.injEq, Prod.mk.injEq] at h
        obtain ⟨hw, ho⟩ := h
        subst hw ho
        have hlt := getElem?_lt_length _ _ _ ha
        refine ⟨?_, ?_, rfl, by simp⟩
        · rw [is_dead_at_of_set w.sys _ id _ A rfl hlt]
          by_cases hA : A = id
          · subst hA
            simpa [is_dead_at_of_getElem? w.sys A actor ha] using hd
          · simpa [hA] using hd
        · rw [mailbox_of_set w.sys _ id _ A rfl hlt]
          by_cases hA : A = id
          · subst hA
            simp [mailbox_of_getElem? w.sys A actor ha]
          · simp [hA]
    · cases h
  | job_finish j =>
    simp only [step] at h
    have key : ∀ id : Nat, (match threadpool_worker_job_second w.sys id true with
        | none => none
        | some s => some ((⟨s, w.jobs.eraseIdx j⟩ : World), ([] : List Obs))) = some (w1, obs) →
        is_dead_at w1.sys A = true ∧ mailbox w1.sys A <:+ mailbox w.sys A ∧
          accepted A obs = [] ∧ (∀ msg r, Obs.sent A msg r ∈ obs → r = -1) := by
      intro id h
      cases hr : threadpool_worker_job_second w.sys id true with
      | none => simp [hr] at h
      | some s =>
        simp only [hr, Option.some.injEq, Prod.mk.injEq] at h
        obtain ⟨hw, ho⟩ := h
        subst hw ho
        obtain ⟨h1, h2⟩ := threadpool_worker_job_second_frame w.sys id s hr A
        exact ⟨by rw [h1]; exact hd, by rw [h2], rfl, by simp⟩
    split at h
    · exact key _ h
    · exact key _ h
    · cases h

theorem dead_exec (cfg : Config) (es : List Event) (w : World) (log : List Obs) (w1 : World)
    (log1 : List Obs) (A : Nat) (hd : is_dead_at w.sys A = true)
    (h : exec cfg w log es = some (w1, log1)) :
    is_dead_at w1.sys A = true ∧ mailbox w1.sys A <:+ mailbox w.sys A ∧
      ∃ ext, log1 = log ++ ext ∧ accepted A ext = [] ∧
        (∀ msg r, Obs.sent A msg r ∈ ext → r = -1) := by
  induction es generalizing w log with
  | nil =>
    simp only [exec, Option.some.injEq, Prod.mk.injEq] at h
    obtain ⟨hw, hl⟩ := h
    subst hw hl
    exact ⟨hd, List.suffix_refl _, [], by simp, rfl, by simp⟩
  | cons e rest ih =>
    simp only [exec] at h
    cases hs : step cfg w e with
    | none => simp [hs] at h
    | some p =>
      obtain ⟨w2, obs⟩ := p
      simp only [hs] at h
      obtain ⟨hd2, hsuf2, hacc2, hsent2⟩ := dead_step cfg w e w2 obs A hd hs
      obtain ⟨hd3, hsuf3, ext, hlog, hacc3, hsent3⟩ := ih w2 (log ++ obs) hd2 h
      refine ⟨hd3, hsuf3.trans hsuf2, obs ++ ext, by rw [hlog, List.append_assoc], ?_, ?_⟩
      · rw [accepted_append, hacc2, hacc3]; rfl
      · intro msg r hmem
        rcases List.mem_append.1 hmem with hm | hm
        · exact hsent2 msg r hm
        · exact hsent3 msg r hm

/-- C7. Once a worker job has processed a TERMINATE message for actor `A` (its first
critical section popped a message of type `MSG_GODIE`, a type distinct from `MSG_SPAWN`),
then after any further steps `A` is in the registry with `is_dead` set, its mailbox is a
suffix of what it was (it has gained nothing), no message has been accepted for it, every
`send_message` to `A` that took place returned -1, and a `send_message` to `A` now
returns -1 and changes nothing. -/
theorem refusal_after_terminate (cfg : Config) (w : World) (k A : Nat) (m : message_t)
    (w1 : World) (obs : List Obs) (hne : cfg.MSG_GODIE ≠ cfg.MSG_SPAWN)
    (h : step cfg w (.job_start k) = some (w1, obs)) (hp : Obs.popped A m ∈ obs)
    (hm : m.message_type = cfg.MSG_GODIE)
    (es : List Event) (log1 : List Obs) (w2 : World) (log2 : List Obs)
    (he : exec cfg w1 log1 es = some (w2, log2)) :
    is_dead_at w2.sys A = true ∧ A < vec_length w2.sys.actors ∧
      mailbox w2.sys A <:+ mailbox w1.sys A ∧
      (∃ ext, log2 = log1 ++ ext ∧ accepted A ext = [] ∧
        ∀ msg r, Obs.sent A msg r ∈ ext → r = -1) ∧
      ∀ msg b1 b2, send_message cfg w2.sys A msg b1 b2 = some (w2.sys, -1) := by
  have hdead : is_dead_at w1.sys A = true := by
    simp only [step] at h
    split at h
    · cases h
    · cases hk : w.sys.threadpool[k]? with
      | none => simp [hk] at h
      | some id =>
        simp only [hk] at h
        cases hr : threadpool_worker_job_first cfg
            { w.sys with threadpool := w.sys.threadpool.eraseIdx k } id true true with
        | none => simp [hr] at h
        | some p =>
          obtain ⟨s, job⟩ := p
          simp only [hr, Option.some.injEq, Prod.mk.injEq] at h
          obtain ⟨hw, ho⟩ := h
          subst hw ho
          have hAm : A = id ∧ m = job.m := by
            by_cases hc : job.stage = Stage.in_handler <;> simp [hc] at hp <;>
              exact ⟨hp.1, hp.2⟩
          obtain ⟨-, -, h3⟩ := threadpool_worker_job_first_frame cfg _ id s job hr A
          exact h3 hAm.1 (by rw [← hAm.2]; exact hm) hne
  obtain ⟨hd2, hsuf, hext⟩ := dead_exec cfg es w1 log1 w2 log2 A hdead he
  refine ⟨hd2, ?_, hsuf, hext, ?_⟩
  · obtain ⟨actor, ha, -⟩ := (is_dead_at_true_iff w2.sys A).1 hd2
    exact getElem?_lt_length _ _ _ ha
  · intro msg b1 b2
    exact send_message_to_dead cfg w2.sys A msg b1 b2 hd2

theorem ticket_has_message (s : actor_system_t) (hs : SysInv s) (k A : Nat)
    (hk : s.threadpool[k]? = some A) :
    ∃ actor m rest, s.actors[A]? = some actor ∧ actor.queue = m :: rest ∧
      actor.is_scheduled = true := by
  have hmem : A ∈ s.threadpool := List.getElem?_mem hk
  have hlt := hs.in_range A hmem
  have ha : s.actors[A]? = some s.actors[A] := List.getElem?_eq_getElem hlt
  have hcount := hs.tickets A _ ha
  have hpos : 0 < s.threadpool.count A := List.count_pos_iff.2 hmem
  have hsch : (s.actors[A]).is_scheduled = true := by
    cases hb : (s.actors[A]).is_scheduled with
    | true => rfl
    | false => rw [hb] at hcount; simp at hcount; omega
  have hq := hs.nonempty A _ ha hsch
  cases hqq : (s.actors[A]).queue with
  | nil => exact absurd hqq hq
  | cons m rest => exact ⟨_, m, rest, ha, hqq, hsch⟩

theorem step_job_start_eq (cfg : Config) (w : World) (k A : Nat) (actor : actor_t)
    (m : message_t) (rest : List message_t) (hfree : w.jobs.length < cfg.POOL_SIZE)
    (hk : w.sys.threadpool[k]? = some A) (ha : w.sys.actors[A]? = some actor)
    (hq : actor.queue = m :: rest) :
    step cfg w (.job_start k) =
      if m.message_type = cfg.MSG_SPAWN then
        some (⟨⟨(w.sys.number_of_active_actors + 1) % UINT_MODULUS,
                w.sys.threadpool.eraseIdx k,
                w.sys.actors.set A ⟨actor.is_dead, false, rest, actor.role, actor.stateptr⟩ ++
                  [⟨false, false, [], m.data, 0⟩]⟩,
               w.jobs ++ [⟨A, m, .hello_pending w.sys.actors.length⟩]⟩,
              [.popped A m])
      else if m.message_type = cfg.MSG_GODIE then
        some (⟨⟨w.sys.number_of_active_actors, w.sys.threadpool.eraseIdx k,
                w.sys.actors.set A ⟨true, false, rest, actor.role, actor.stateptr⟩⟩,
               w.jobs ++ [⟨A, m, .wrap_up⟩]⟩,
              [.popped A m])
      else if has_handler cfg actor.role m = true then
        some (⟨⟨w.sys.number_of_active_actors, w.sys.threadpool.eraseIdx k,
                w.sys.actors.set A ⟨actor.is_dead, false, rest, actor.role, actor.stateptr⟩⟩,
               w.jobs ++ [⟨A, m, .in_handler⟩]⟩,
              [.popped A m, .invoked A m])
      else none := by
  have hnot : ¬ cfg.POOL_SIZE ≤ w.jobs.length := Nat.not_le.2 hfree
  have hfirst := threadpool_worker_job_first_eq cfg
    ⟨w.sys.number_of_active_actors, w.sys.threadpool.eraseIdx k, w.sys.actors⟩ A actor m rest
    ha hq
  simp only [step, hnot, if_false, hk, hfirst]
  by_cases h1 : m.message_type = cfg.MSG_SPAWN
  · simp [h1]
  · by_cases h2 : m.message_type = cfg.MSG_GODIE
    · have h3 : ¬ cfg.MSG_GODIE = cfg.MSG_SPAWN := fun h => h1 (h2.trans h)
      simp [h2, h3]
    · by_cases h4 : has_handler cfg actor.role m = true
      · simp [h1, h2, h4]
      · simp [h1, h2, h4]

theorem step_pops_only_at_start (cfg : Config) (w : World) (e : Event) (w1 : World)
    (obs : List Obs) (h : step cfg w e = some (w1, obs)) (hne : ∀ k, e ≠ .job_start k)
    (A : Nat) : popped A obs = [] := by
  cases e with
  | send id msg =>
    simp only [step] at h
    cases hr : send_message cfg w.sys id msg true true with
    | none => simp [hr] at h
    | some p =>
      simp only [hr, Option.some.injEq, Prod.mk.injEq] at h
      rw [← h.2]; rfl
  | job_start k => exact absurd rfl (hne k)
  | job_hello j =>
    simp only [step] at h
    split at h
    · rename_i id m new_id hj
      cases hr : send_message cfg w.sys new_id (hello_message cfg id) true true with
      | none => simp [hr] at h
      | some p =>
        simp only [hr, Option.some.injEq, Prod.mk.injEq] at h
        rw [← h.2]; rfl
    · cases h
  | handler_store j v =>
    simp only [step] at h
    split at h
    · rename_i id m hj
      cases ha : w.sys.actors[id]? with
      | none => simp [ha] at h
      | some actor =>
        simp only [ha, Option.some.injEq, Prod.mk.injEq] at h
        rw [← h.2]; rfl
    · cases h
  | job_finish j =>
    simp only [step] at h
    have key : ∀ id : Nat, (match threadpool_worker_job_second w.sys id true with
        | none => none
        | some s => some ((⟨s, w.jobs.eraseIdx j⟩ : World), ([] : List Obs))) = some (w1, obs) →
        popped A obs = [] := by
      intro id h
      cases hr : threadpool_worker_job_second w.sys id true with
      | none => simp [hr] at h
      | some s =>
        simp only [hr, Option.some.injEq, Prod.mk.injEq] at h
        rw [← h.2]; rfl
    split at h
    · exact key _ h
    · exact key _ h
    · cases h

/-- C5. Ticket conservation: in every reachable state an actor of the registry has one
outstanding ticket when its `is_scheduled` flag is set and none when it is clear; an id
outside the registry has none; so no id ever has two outstanding tickets. -/
theorem ticket_conservation (cfg : Config) (w : World) (log : List Obs)
    (h : Reachable cfg w log) (A : Nat) :
    (∀ actor : actor_t, w.sys.actors[A]? = some actor →
        outstanding_tickets w.sys A = if actor.is_scheduled then 1 else 0) ∧
      (vec_length w.sys.actors ≤ A → outstanding_tickets w.sys A = 0) ∧
      outstanding_tickets w.sys A ≤ 1 := by
  have hi := (reachable_inv cfg w log h).sys
  have h2 : vec_length w.sys.actors ≤ A → outstanding_tickets w.sys A = 0 := by
    intro hge
    simp only [outstanding_tickets, List.count_eq_zero]
    intro hmem
    have := hi.in_range A hmem
    simp only [vec_length] at hge
    omega
  refine ⟨fun actor ha => hi.tickets A actor ha, h2, ?_⟩
  cases ha : w.sys.actors[A]? with
  | none =>
    rw [h2 ((getElem?_none_iff_vec_length w.sys A).1 ha)]
    exact Nat.zero_le 1
  | some actor =>
    have := hi.tickets A actor ha
    unfold outstanding_tickets
    split at this <;> omega

/-- C8. FIFO per actor: in every reachable state the messages accepted for an actor
(`send_message` returned 0), in the order the sends held the lock, are the messages popped
for it, in pop order, followed by its mailbox; so the popped sequence is a prefix of the
accepted one.  The actor of an outstanding ticket has a message at the head of its
mailbox; a worker job that starts on the ticket (it does whenever a worker is free and
that message can be dispatched) pops exactly that one message and pops nothing for any
other actor; no other step pops. -/
theorem fifo_per_actor (cfg : Config) (w : World) (log : List Obs)
    (h : Reachable cfg w log) (A : Nat) :
    accepted A log = popped A log ++ mailbox w.sys A ∧
      popped A log <+: accepted A log ∧
      (∀ k, w.sys.threadpool[k]? = some A →
        ∃ actor m rest, w.sys.actors[A]? = some actor ∧ actor.queue = m :: rest ∧
          (w.jobs.length < cfg.POOL_SIZE → dispatchable cfg actor.role m = true →
            ∃ w1 obs, step cfg w (.job_start k) = some (w1, obs)) ∧
          (∀ w1 obs, step cfg w (.job_start k) = some (w1, obs) →
            popped A obs = [m] ∧ mailbox w.sys A = m :: mailbox w1.sys A ∧
              ∀ B, B ≠ A → popped B obs = [])) ∧
      (∀ e w1 obs, step cfg w e = some (w1, obs) → (∀ k, e ≠ .job_start k) →
        popped A obs = []) := by
  have hi := reachable_inv cfg w log h
  refine ⟨hi.hist.fifo A, ⟨mailbox w.sys A, (hi.hist.fifo A).symm⟩, ?_, ?_⟩
  · intro k hk
    obtain ⟨actor, m, rest, ha, hq, -⟩ := ticket_has_message w.sys hi.sys k A hk
    refine ⟨actor, m, rest, ha, hq, ?_, ?_⟩
    · intro hfree hdisp
      rw [step_job_start_eq cfg w k A actor m rest hfree hk ha hq]
      simp only [dispatchable, Bool.or_eq_true, decide_eq_true_eq] at hdisp
      by_cases h1 : m.message_type = cfg.MSG_SPAWN
      · rw [if_pos h1]; exact ⟨_, _, rfl⟩
      · by_cases h2 : m.message_type = cfg.MSG_GODIE
        · rw [if_neg h1, if_pos h2]; exact ⟨_, _, rfl⟩
        · have h4 : has_handler cfg actor.role m = true := by
            rcases hdisp with (h | h) | h
            · exact absurd h h1
            · exact absurd h h2
            · exact h
          rw [if_neg h1, if_neg h2, if_pos h4]; exact ⟨_, _, rfl⟩
    · intro w1 obs hw1
      simp only [step] at hw1
      split at hw1
      · cases hw1
      · simp only [hk] at hw1
        cases hr : threadpool_worker_job_first cfg
            { w.sys with threadpool := w.sys.threadpool.eraseIdx k } A true true with
        | none => simp [hr] at hw1
        | some p =>
          obtain ⟨s, job⟩ := p
          simp only [hr, Option.some.injEq, Prod.mk.injEq] at hw1
          obtain ⟨hw, ho⟩ := hw1
          obtain ⟨-, hmail, -⟩ := threadpool_worker_job_first_frame cfg _ A s job hr A
          have hjm : job.m = m := by
            have h0 : mailbox { w.sys with threadpool := w.sys.threadpool.eraseIdx k } A =
                m :: rest := by
              simp [mailbox, ha, hq]
            rw [h0] at hmail
            simp only [if_true, List.singleton_append, List.cons.injEq] at hmail
            exact hmail.1.symm
          refine ⟨?_, ?_, ?_⟩
          · rw [← ho, hjm]
            by_cases hc : job.stage = Stage.in_handler <;> simp [popped, hc]
          · have h0 : mailbox { w.sys with threadpool := w.sys.threadpool.eraseIdx k } A =
                mailbox w.sys A := by
              simp [mailbox]
            rw [← h0, hmail, ← hw, hjm]
            simp
          · intro B hB
            rw [← ho]
            by_cases hc : job.stage = Stage.in_handler <;> simp [popped, hc, Ne.symm hB]
  · intro e w1 obs hs hne
    exact step_pops_only_at_start cfg w e w1 obs hs hne A

/-- C3 fails on the code.  With two worker threads, after `overlap_trace` two workers are
between their first and second critical sections for actor 0 at once, each running a
handler of actor 0. -/
theorem overlap_reached :
    (run two_workers 7 overlap_trace).map (fun p => jobs_of p.1 0) =
      some [⟨0, ⟨2, 0, 0⟩, .in_handler⟩, ⟨0, ⟨5, 0, 0⟩, .in_handler⟩] := by
  decide

/-- C4 fails on the code.  After `early_join_trace` the counter is 0, so
`actor_system_join` proceeds to the teardown, while a worker is still in a handler; one
step later the counter has been decremented a second time for the same actor and has
wrapped around; after `orphan_trace` the counter is 0 while actor 1 is alive with a
message in its mailbox. -/
theorem join_proceeds_early :
    (run two_workers 7 early_join_trace).map (fun p => (actor_system_join_proceeds p.1.sys, p.1.jobs)) =
        some (true, [⟨0, ⟨2, 0, 0⟩, .in_handler⟩]) ∧
      (run two_workers 7 (early_join_trace ++ [.job_finish 0])).map
          (fun p => (p.1.sys.actors.length, p.1.sys.number_of_active_actors)) =
        some (1, 4294967295) ∧
      (run two_workers 7 orphan_trace).map
          (fun p => (actor_system_join_proceeds p.1.sys, is_dead_at p.1.sys 1, mailbox p.1.sys 1)) =
        some (true, false, [⟨5, 0, 0⟩]) := by
  decide

/-- C6 fails on the code as stated.  After `overtake_trace`, with a single worker, actor
1 was created by the SPAWN popped for actor 0, and the first message popped for actor 1
has type 5, not `MSG_HELLO` (2); the HELLO of its parent is behind it. -/
theorem hello_overtaken :
    (run one_worker 7 overtake_trace).map
        (fun p => (popped 0 p.2, popped 1 p.2, mailbox p.1.sys 1)) =
      some ([⟨2, 0, 0⟩, ⟨1, 0, 7⟩], [⟨5, 0, 0⟩], [⟨2, 8, 0⟩]) := by
  decide

/-- C10 fails on the code.  After `behind_terminate_trace`, with a single worker, the root
is dead, and the log shows its TERMINATE popped and then the message of type 5, queued
behind it, popped and handed to the user handler. -/
theorem handled_behind_terminate :
    (run one_worker 7 behind_terminate_trace).map (fun p => (is_dead_at p.1.sys 0, p.2)) =
      some (true,
        [.sent 0 ⟨2, 0, 0⟩ 0, .sent 0 ⟨0, 0, 0⟩ 0, .sent 0 ⟨5, 0, 0⟩ 0,
         .popped 0 ⟨2, 0, 0⟩, .invoked 0 ⟨2, 0, 0⟩,
         .popped 0 ⟨0, 0, 0⟩,
         .popped 0 ⟨5, 0, 0⟩, .invoked 0 ⟨5, 0, 0⟩]) := by
  decide

/-- The overlap of `overlap_reached` does not depend on the values of the constants: with
at least two worker threads, and HELLO a type for which the root's role has a handler,
two workers run a handler of the root actor at once. -/
theorem overlap_for_all_constants (cfg : Config) (role n : Nat) (hp : 2 ≤ cfg.POOL_SIZE)
    (h1 : cfg.MSG_HELLO ≠ cfg.MSG_SPAWN) (h2 : cfg.MSG_HELLO ≠ cfg.MSG_GODIE)
    (hn : cfg.nprompts_at role = some n) (hlt : cfg.MSG_HELLO < n) :
    (run cfg role [.job_start 0, .send 0 ⟨cfg.MSG_HELLO, 0, 0⟩, .job_start 0]).map
        (fun p => jobs_of p.1 0) =
      some [⟨0, ⟨cfg.MSG_HELLO, 0, 0⟩, .in_handler⟩, ⟨0, ⟨cfg.MSG_HELLO, 0, 0⟩, .in_handler⟩] := by
  have hp0 : ¬ cfg.POOL_SIZE ≤ 0 := by omega
  have hp1 : ¬ cfg.POOL_SIZE ≤ 1 := by omega
  have hcap : 0 < cfg.MAILBOX_CAPACITY := Nat.lt_of_lt_of_le (by decide) cfg.capacity_ge
  simp [run, boot_eq, exec, step, threadpool_worker_job_first, send_message, queue_pop,
    queue_push, threadpool_schedule, jobs_of, hp0, hp1, h1, h2, hn, hlt, hcap]

/-- The three hand-written states used below are states of runs. -/
theorem concrete_worlds_reached :
    (run two_workers 7 [.job_start 0, .job_finish 0, .send 0 ⟨1, 0, 9⟩]).map Prod.fst =
        some spawn_world ∧
      (run one_worker 7 [.send 0 ⟨0, 0, 0⟩, .send 0 ⟨5, 0, 0⟩, .job_start 0, .job_finish 0,
          .job_start 0, .job_finish 0]).map Prod.fst = some dead_world ∧
      (run two_workers 7 [.job_start 0, .job_finish 0, .send 0 ⟨0, 0, 0⟩]).map Prod.fst =
        some terminate_world := by
  decide

/-- C9. When a worker job for `P` pops a SPAWN message (a worker being free and the
allocations succeeding): one record is
appended to the registry, at the index that was the registry length, with the payload as
its role, both flags clear, a `NULL` user state and an empty mailbox; the other records
keep their index and content, and the record of `P` changes only by the pop and the
cleared `is_scheduled`; the counter is incremented once, as an `unsigned` is, which is
a growth by exactly 1 below the largest `unsigned`; no handler is invoked; the job's next
action is `send_message` to the new id with a HELLO message whose payload is `P`, and
executed at once it returns 0 and puts that message in the new mailbox. -/
theorem spawn_creates_actor (cfg : Config) (w : World) (k P : Nat) (actor : actor_t)
    (m : message_t) (rest : List message_t) (hfree : w.jobs.length < cfg.POOL_SIZE)
    (hk : w.sys.threadpool[k]? = some P) (ha : w.sys.actors[P]? = some actor)
    (hq : actor.queue = m :: rest) (hm : m.message_type = cfg.MSG_SPAWN) :
    ∃ w1 w2 : World,
      step cfg w (.job_start k) = some (w1, [.popped P m]) ∧
      w1.sys.actors =
        w.sys.actors.set P ⟨actor.is_dead, false, rest, actor.role, actor.stateptr⟩ ++
          [⟨false, false, [], m.data, 0⟩] ∧
      vec_length w1.sys.actors = vec_length w.sys.actors + 1 ∧
      w1.sys.actors[vec_length w.sys.actors]? = some ⟨false, false, [], m.data, 0⟩ ∧
      (∀ other, other ≠ P → other < vec_length w.sys.actors →
        w1.sys.actors[other]? = w.sys.actors[other]?) ∧
      w1.sys.actors[P]? = some ⟨actor.is_dead, false, rest, actor.role, actor.stateptr⟩ ∧
      w1.sys.number_of_active_actors =
        (w.sys.number_of_active_actors + 1) % UINT_MODULUS ∧
      (w.sys.number_of_active_actors + 1 < UINT_MODULUS →
        w1.sys.number_of_active_actors = w.sys.number_of_active_actors + 1) ∧
      w1.sys.threadpool = w.sys.threadpool.eraseIdx k ∧
      w1.jobs = w.jobs ++ [⟨P, m, .hello_pending (vec_length w.sys.actors)⟩] ∧
      (∀ (wx : World) (j : Nat),
        wx.jobs[j]? = some ⟨P, m, .hello_pending (vec_length w.sys.actors)⟩ →
        step cfg wx (.job_hello j) =
          (send_message cfg wx.sys (vec_length w.sys.actors) (hello_message cfg P) true
              true).map
            (fun p => (⟨p.1, wx.jobs.set j ⟨P, m, .wrap_up⟩⟩,
              [.sent (vec_length w.sys.actors) (hello_message cfg P) p.2]))) ∧
      (hello_message cfg P).message_type = cfg.MSG_HELLO ∧
      (hello_message cfg P).data = P ∧
      step cfg w1 (.job_hello w.jobs.length) =
        some (w2, [.sent (vec_length w.sys.actors) (hello_message cfg P) 0]) ∧
      mailbox w2.sys (vec_length w.sys.actors) = [hello_message cfg P] ∧
      w2.jobs = w.jobs ++ [⟨P, m, .wrap_up⟩] := by
  have hlt := getElem?_lt_length _ _ _ ha
  have hs := step_job_start_eq cfg w k P actor m rest hfree hk ha hq
  rw [if_pos hm] at hs
  have hcap : 0 < cfg.MAILBOX_CAPACITY := Nat.lt_of_lt_of_le (by decide) cfg.capacity_ge
  have hnew : (w.sys.actors.set P ⟨actor.is_dead, false, rest, actor.role, actor.stateptr⟩ ++
      [(⟨false, false, [], m.data, 0⟩ : actor_t)])[w.sys.actors.length]? =
      some ⟨false, false, [], m.data, 0⟩ := by
    rw [List.getElem?_append_right (by simp)]
    simp
  have hgen : ∀ (wx : World) (j : Nat),
      wx.jobs[j]? = some ⟨P, m, .hello_pending (vec_length w.sys.actors)⟩ →
      step cfg wx (.job_hello j) =
        (send_message cfg wx.sys (vec_length w.sys.actors) (hello_message cfg P) true
            true).map
          (fun p => (⟨p.1, wx.jobs.set j ⟨P, m, .wrap_up⟩⟩,
            [.sent (vec_length w.sys.actors) (hello_message cfg P) p.2])) := by
    intro wx j hj
    simp only [step, hj]
    cases send_message cfg wx.sys (vec_length w.sys.actors) (hello_message cfg P) true true with
    | none => rfl
    | some p => rfl
  refine ⟨_,
    ⟨⟨(w.sys.number_of_active_actors + 1) % UINT_MODULUS,
        w.sys.threadpool.eraseIdx k ++ [w.sys.actors.length],
        (w.sys.actors.set P
            (⟨actor.is_dead, false, rest, actor.role, actor.stateptr⟩ : actor_t) ++
          [(⟨false, false, [], m.data, 0⟩ : actor_t)]).set w.sys.actors.length
            (⟨false, true, [] ++ [hello_message cfg P], m.data, 0⟩ : actor_t)⟩,
      (w.jobs ++ [(⟨P, m, .hello_pending w.sys.actors.length⟩ : Job)]).set w.jobs.length
        (⟨P, m, .wrap_up⟩ : Job)⟩,
    hs, rfl, by simp [vec_length], hnew, ?other, ?self, rfl, Nat.mod_eq_of_lt, rfl,
    rfl, hgen, rfl, rfl, ?hello, ?box, ?jobs⟩
  case hello =>
    rw [hgen _ w.jobs.length (by simp [vec_length])]
    have hacc := send_message_accept cfg
      ⟨(w.sys.number_of_active_actors + 1) % UINT_MODULUS, w.sys.threadpool.eraseIdx k,
        w.sys.actors.set P ⟨actor.is_dead, false, rest, actor.role, actor.stateptr⟩ ++
          [⟨false, false, [], m.data, 0⟩]⟩
      w.sys.actors.length (hello_message cfg P) ⟨false, false, [], m.data, 0⟩ hnew rfl hcap
    simp only [vec_length]
    rw [hacc]
    rfl
  case other =>
    intro other hne hlo
    simp only [vec_length] at hlo
    rw [List.getElem?_append_left (by rw [List.length_set]; exact hlo),
      List.getElem?_set_ne (Ne.symm hne)]
  case self =>
    rw [List.getElem?_append_left (by rw [List.length_set]; exact hlt)]
    simp [List.getElem?_set, hlt]
  case box =>
    simp only [vec_length, mailbox]
    rw [List.getElem?_set_self (by simp)]
    simp
  case jobs => simp

/-- C9 at a concrete state: the root pops SPAWN with role 9 and creates actor 1. -/
theorem spawn_creates_actor_witness :
    ∃ w1 w2 : World,
      step two_workers spawn_world (.job_start 0) = some (w1, [.popped 0 ⟨1, 0, 9⟩]) ∧
      w1.sys.actors[1]? = some ⟨false, false, [], 9, 0⟩ ∧
      w1.sys.number_of_active_actors = 2 ∧
      step two_workers w1 (.job_hello 0) = some (w2, [.sent 1 ⟨2, 8, 0⟩ 0]) := by
  obtain ⟨w1, w2, h1, -, -, h4, -, -, -, h7, -, -, -, -, -, h13, -, -⟩ :=
    spawn_creates_actor two_workers spawn_world 0 0 ⟨false, true, [⟨1, 0, 9⟩], 7, 0⟩
      ⟨1, 0, 9⟩ [] (by decide) rfl rfl rfl rfl
  exact ⟨w1, w2, h1, h4, h7 (by decide), h13⟩

/-- C10 as the code has it.  A message queued behind TERMINATE is not discarded: a worker
job that pops, for an actor whose `is_dead` is set, a message of a type other than
`MSG_SPAWN` and `MSG_GODIE` that is an index of the handler table of the actor's role
hands it to the user handler like any other, and the actor stays dead; where the role
has no handler for the type, the unchecked call of line 120 has no defined result, dead
or not.  The second critical section, on a dead unscheduled actor with messages left,
submits a new ticket and leaves the counter alone; it decrements the counter on a dead
actor whose mailbox is empty. -/
theorem dead_actor_still_dispatches (cfg : Config) (w : World) (k A : Nat) (actor : actor_t)
    (m : message_t) (rest : List message_t) (hfree : w.jobs.length < cfg.POOL_SIZE)
    (hk : w.sys.threadpool[k]? = some A) (ha : w.sys.actors[A]? = some actor)
    (hd : actor.is_dead = true) (hq : actor.queue = m :: rest)
    (h1 : m.message_type ≠ cfg.MSG_SPAWN) (h2 : m.message_type ≠ cfg.MSG_GODIE) :
    (∀ nprompts, cfg.nprompts_at actor.role = some nprompts → m.message_type < nprompts →
      ∃ w1 : World,
        step cfg w (.job_start k) = some (w1, [.popped A m, .invoked A m]) ∧
        is_dead_at w1.sys A = true ∧ mailbox w1.sys A = rest ∧
        w1.sys.number_of_active_actors = w.sys.number_of_active_actors) ∧
    (has_handler cfg actor.role m = false → step cfg w (.job_start k) = none) ∧
    (∀ (s : actor_system_t) (a : actor_t), s.actors[A]? = some a → a.is_dead = true →
      a.is_scheduled = false → a.queue ≠ [] →
      threadpool_worker_job_second s A true =
        some ⟨s.number_of_active_actors, s.threadpool ++ [A],
          s.actors.set A ⟨true, true, a.queue, a.role, a.stateptr⟩⟩) ∧
    (∀ (s : actor_system_t) (a : actor_t), s.actors[A]? = some a → a.is_dead = true →
      a.queue = [] →
      threadpool_worker_job_second s A true =
        some ⟨(s.number_of_active_actors + (UINT_MODULUS - 1)) % UINT_MODULUS, s.threadpool,
          s.actors⟩) := by
  have hlt := getElem?_lt_length _ _ _ ha
  have hs := step_job_start_eq cfg w k A actor m rest hfree hk ha hq
  rw [if_neg h1, if_neg h2] at hs
  refine ⟨?_, ?_, ?_, ?_⟩
  · intro nprompts hn hin
    have hh : has_handler cfg actor.role m = true := by
      simp [has_handler, hn, hin]
    rw [if_pos hh] at hs
    refine ⟨_, hs, ?_, ?_, rfl⟩
    · rw [is_dead_at_of_set w.sys _ A _ A rfl hlt]
      simp [hd]
    · rw [mailbox_of_set w.sys _ A _ A rfl hlt]
      simp
  · intro hh
    rw [hs]
    simp [hh]
  · intro s a hsa hda hsc hqa
    rw [threadpool_worker_job_second_eq s A a hsa]
    simp [hqa, hsc, hda]
  · intro s a hsa hda hqa
    rw [threadpool_worker_job_second_eq s A a hsa]
    simp [hqa, hda]

/-- C10 as the code has it, at a concrete state: a dead root, whose role has 8 handlers,
with a message of type 5 queued. -/
theorem dead_actor_still_dispatches_witness :
    ∃ w1 : World,
      step one_worker dead_world (.job_start 0) =
        some (w1, [.popped 0 ⟨5, 0, 0⟩, .invoked 0 ⟨5, 0, 0⟩]) ∧
      is_dead_at w1.sys 0 = true ∧ mailbox w1.sys 0 = [] ∧
      w1.sys.number_of_active_actors = dead_world.sys.number_of_active_actors :=
  (dead_actor_still_dispatches one_worker dead_world 0 0 ⟨true, true, [⟨5, 0, 0⟩], 7, 0⟩
    ⟨5, 0, 0⟩ [] (by decide) rfl rfl rfl rfl (by decide) (by decide)).1 8 rfl (by decide)

theorem nothing_accepted_at_creation (cfg : Config) (w : World) (log : List Obs)
    (h : Reachable cfg w log) (k : Nat) (w1 : World) (obs : List Obs)
    (hs : step cfg w (.job_start k) = some (w1, obs)) :
    accepted (vec_length w.sys.actors) (log ++ obs) = [] := by
  have hi := reachable_inv cfg w log h
  simp only [vec_length]
  rw [accepted_append, hi.hist.fresh _ (Nat.le_refl _)]
  simp only [step] at hs
  split at hs
  · cases hs
  · cases hk : w.sys.threadpool[k]? with
    | none => simp [hk] at hs
    | some id =>
      simp only [hk] at hs
      cases hr : threadpool_worker_job_first cfg
          { w.sys with threadpool := w.sys.threadpool.eraseIdx k } id true true with
      | none => simp [hr] at hs
      | some p =>
        simp only [hr, Option.some.injEq, Prod.mk.injEq] at hs
        rw [← hs.2]
        by_cases hc : p.2.stage = Stage.in_handler <;> simp [accepted, hc]

/-- C6 as the code has it.  HELLO first, unless overtaken: in a reachable state in which
the worker that created actor `c` for parent `P` has its HELLO still to send and no
`send_message` to `c` has been accepted yet, that HELLO send returns 0, and from then on
the first message accepted for `c`, and so the first message popped for `c` if any is
popped, is the HELLO message with payload `P`. -/
theorem hello_first_unless_overtaken (cfg : Config) (w : World) (log : List Obs)
    (j P c : Nat) (m : message_t) (hr : Reachable cfg w log)
    (hj : w.jobs[j]? = some ⟨P, m, .hello_pending c⟩) (hacc : accepted c log = []) :
    ∃ w1 : World,
      step cfg w (.job_hello j) = some (w1, [.sent c (hello_message cfg P) 0]) ∧
      ∀ (es : List Event) (w2 : World) (log2 : List Obs),
        exec cfg w1 (log ++ [.sent c (hello_message cfg P) 0]) es = some (w2, log2) →
        (accepted c log2).head? = some (hello_message cfg P) ∧
          ∀ x, (popped c log2).head? = some x →
            x = hello_message cfg P ∧ x.message_type = cfg.MSG_HELLO ∧ x.data = P := by
  have hi := reachable_inv cfg w log hr
  have hlt : c < w.sys.actors.length :=
    hi.hello_in_range ⟨P, m, .hello_pending c⟩ (List.getElem?_mem hj) c rfl
  have ha : w.sys.actors[c]? = some w.sys.actors[c] := List.getElem?_eq_getElem hlt
  have hfifo := hi.hist.fifo c
  rw [hacc] at hfifo
  have hpop : popped c log = [] := (List.append_eq_nil.1 hfifo.symm).1
  have hd : (w.sys.actors[c]).is_dead = false := by
    cases hb : (w.sys.actors[c]).is_dead with
    | false => rfl
    | true =>
      have := hi.hist.dead_popped c (by rw [is_dead_at_of_getElem? w.sys c _ ha]; exact hb)
      exact absurd hpop this
  have hempty : (w.sys.actors[c]).queue = [] := by
    have := (List.append_eq_nil.1 hfifo.symm).2
    rwa [mailbox_of_getElem? w.sys c _ ha] at this
  have hcap : (w.sys.actors[c]).queue.length < cfg.MAILBOX_CAPACITY := by
    rw [hempty]
    exact Nat.lt_of_lt_of_le (by decide) cfg.capacity_ge
  have hsend := send_message_accept cfg w.sys c (hello_message cfg P) _ ha hd hcap
  have hstep : step cfg w (.job_hello j) =
      some (⟨⟨w.sys.number_of_active_actors,
              if (w.sys.actors[c]).is_scheduled then w.sys.threadpool
              else w.sys.threadpool ++ [c],
              w.sys.actors.set c
                ⟨false, true, (w.sys.actors[c]).queue ++ [hello_message cfg P],
                  (w.sys.actors[c]).role, (w.sys.actors[c]).stateptr⟩⟩,
             w.jobs.set j ⟨P, m, .wrap_up⟩⟩,
            [.sent c (hello_message cfg P) 0]) := by
    simp only [step, hj, hsend]
  refine ⟨_, hstep, ?_⟩
  intro es w2 log2 he
  have hr1 := reachable_step cfg w log hr (.job_hello j) _ _ hstep
  have hi2 := reachable_inv cfg w2 log2 (reachable_exec cfg _ _ hr1 es w2 log2 he)
  obtain ⟨ext, hext⟩ := exec_log cfg es _ _ w2 log2 he
  have hacc2 : accepted c log2 = hello_message cfg P :: accepted c ext := by
    rw [hext, accepted_append, accepted_append, hacc]
    simp [accepted]
  refine ⟨by rw [hacc2]; rfl, ?_⟩
  intro x hx
  have hfifo2 := hi2.hist.fifo c
  rw [hacc2] at hfifo2
  cases hp : popped c log2 with
  | nil => rw [hp] at hx; cases hx
  | cons y rest =>
    rw [hp] at hx hfifo2
    simp only [List.head?_cons, Option.some.injEq] at hx
    simp only [List.cons_append, List.cons.injEq] at hfifo2
    have hxe : x = hello_message cfg P := by rw [← hx, ← hfifo2.1]
    subst hxe
    exact ⟨rfl, rfl, rfl⟩

/-- C6 as the code has it, at a concrete run: after `spawn_trace` the root's worker has
HELLO pending for actor 1 and nothing has been accepted for actor 1. -/
theorem hello_first_unless_overtaken_witness :
    Reachable one_worker (run_result one_worker 7 spawn_trace).1
        (run_result one_worker 7 spawn_trace).2 ∧
      (run_result one_worker 7 spawn_trace).1.jobs[0]? =
        some ⟨0, ⟨1, 0, 7⟩, .hello_pending 1⟩ ∧
      accepted 1 (run_result one_worker 7 spawn_trace).2 = [] ∧
      ∃ w1 : World,
        step one_worker (run_result one_worker 7 spawn_trace).1 (.job_hello 0) =
          some (w1, [.sent 1 (hello_message one_worker 0) 0]) := by
  have hr : Reachable one_worker (run_result one_worker 7 spawn_trace).1
      (run_result one_worker 7 spawn_trace).2 :=
    reachable_of_run one_worker 7 spawn_trace _ _ (by decide)
  obtain ⟨w1, h1, -⟩ := hello_first_unless_overtaken one_worker _ _ 0 0 1 ⟨1, 0, 7⟩ hr
    (by decide) (by decide)
  exact ⟨hr, by decide, by decide, w1, h1⟩

/-- C5 at a concrete run: after `scheduled_trace` the root is scheduled and has exactly
one outstanding ticket. -/
theorem ticket_conservation_witness :
    Reachable two_workers (run_result two_workers 7 scheduled_trace).1
        (run_result two_workers 7 scheduled_trace).2 ∧
      outstanding_tickets (run_result two_workers 7 scheduled_trace).1.sys 0 = 1 := by
  have hr : Reachable two_workers (run_result two_workers 7 scheduled_trace).1
      (run_result two_workers 7 scheduled_trace).2 :=
    reachable_of_run two_workers 7 scheduled_trace _ _ (by decide)
  have h := (ticket_conservation two_workers _ _ hr 0).1 ⟨false, true, [⟨5, 0, 0⟩], 7, 0⟩
    (by decide)
  exact ⟨hr, h⟩

/-- C8 at a concrete run: the state after `behind_terminate_trace`. -/
theorem fifo_per_actor_witness :
    Reachable one_worker (run_result one_worker 7 behind_terminate_trace).1
        (run_result one_worker 7 behind_terminate_trace).2 ∧
      popped 0 (run_result one_worker 7 behind_terminate_trace).2 <+:
        accepted 0 (run_result one_worker 7 behind_terminate_trace).2 := by
  have hr : Reachable one_worker (run_result one_worker 7 behind_terminate_trace).1
      (run_result one_worker 7 behind_terminate_trace).2 :=
    reachable_of_run one_worker 7 behind_terminate_trace _ _ (by decide)
  exact ⟨hr, (fifo_per_actor one_worker _ _ hr 0).2.1⟩

/-- C7 at a concrete state: the root's worker pops TERMINATE, then a message of type 5 is
sent to the root. -/
theorem refusal_after_terminate_witness :
    step two_workers terminate_world (.job_start 0) =
        some (⟨⟨1, [], [⟨true, false, [], 7, 0⟩]⟩, [⟨0, ⟨0, 0, 0⟩, .wrap_up⟩]⟩,
          [.popped 0 ⟨0, 0, 0⟩]) ∧
      is_dead_at (⟨1, [], [⟨true, false, [], 7, 0⟩]⟩ : actor_system_t) 0 = true ∧
      ∀ msg b1 b2,
        send_message two_workers (⟨1, [], [⟨true, false, [], 7, 0⟩]⟩ : actor_system_t) 0 msg b1
            b2 =
          some (⟨1, [], [⟨true, false, [], 7, 0⟩]⟩, -1) := by
  have h := refusal_after_terminate two_workers terminate_world 0 0 ⟨0, 0, 0⟩
    ⟨⟨1, [], [⟨true, false, [], 7, 0⟩]⟩, [⟨0, ⟨0, 0, 0⟩, .wrap_up⟩]⟩ [.popped 0 ⟨0, 0, 0⟩]
    (by decide) (by decide) (by decide) rfl [.send 0 ⟨5, 0, 0⟩] []
    ⟨⟨1, [], [⟨true, false, [], 7, 0⟩]⟩, [⟨0, ⟨0, 0, 0⟩, .wrap_up⟩]⟩ [.sent 0 ⟨5, 0, 0⟩ (-1)]
    (by decide)
  exact ⟨by decide, h.1, h.2.2.2.2⟩

end Cacti
